import Mathlib

/-!
Verification development for a GUI-automation agent (response
extraction/validation pipeline, coordinate mapper, ReAct control loop).

The Python sources are embedded shallowly:
- JSON values are modelled by the inductive `JVal` (Python `json.loads`
  distinguishes ints from floats, hence separate `jint` / `jnum`).
- The float arithmetic of the coordinate mapper is modelled exactly over
  the rationals, expressed with integer numerator/denominator so that all
  computations are kernel-reducible; the concrete inputs exercised by the
  theorems are exactly representable as doubles, so the rational model
  agrees with the float computation there.
- Python `round` (banker's rounding, round-half-to-even) is `pyRoundFrac`.
- External effects (pyautogui input injection, screenshots, the LLM HTTP
  call, wall-clock time) are modelled by explicit parameters or recorded
  operation lists; timestamps and elapsed times are omitted.
-/

/-- JSON values as produced by Python's `json.loads`: objects are key/value
association lists (decoded Python dicts have unique keys). -/
inductive JVal where
  | jnull : JVal
  | jbool : Bool → JVal
  | jint : Int → JVal
  | jnum : Rat → JVal
  | jstr : String → JVal
  | jarr : List JVal → JVal
  | jobj : List (String × JVal) → JVal

/-- Lookup of a key in a decoded JSON object (Python `dict.get`). -/
def jget (o : List (String × JVal)) (k : String) : Option JVal :=
  match o with
  | [] => none
  | (k', v) :: rest => if k' = k then some v else jget rest k

/-- Python's `type(x).__name__`-style tag for a JSON value, used in the
parser's error messages (the f-string interpolation of `type(data)` is
abstracted to this tag). -/
def pyTypeName : JVal → String
  | .jnull => "NoneType"
  | .jbool _ => "bool"
  | .jint _ => "int"
  | .jnum _ => "float"
  | .jstr _ => "str"
  | .jarr _ => "list"
  | .jobj _ => "dict"

/-- Rough rendering of a JSON value as Python `str()` would show it inside an
f-string; only the scalar cases are ever reached by the embedded code. -/
def jvalDisplay : JVal → String
  | .jnull => "None"
  | .jbool b => if b then "True" else "False"
  | .jint n => toString n
  | .jnum q => toString q.num ++ "/" ++ toString q.den
  | .jstr s => s
  | .jarr _ => "[...]"
  | .jobj _ => "\x7b...\x7d"

/-- Python 3 `round` applied to the exact rational `n / d`: round half to
even.  Defined over plain integer arithmetic (`Int.fdiv` is floor
division); the `d = 0` case is unreachable in the embedded code paths and
is given an arbitrary value. -/
def pyRoundFrac (n d : Int) : Int :=
  if d = 0 then 0
  else
    let n' := if d < 0 then -n else n
    let d' := if d < 0 then -d else d
    let q := n'.fdiv d'
    let r := n' - q * d'
    if 2 * r < d' then q
    else if d' < 2 * r then q + 1
    else if q % 2 = 0 then q else q + 1

/-- Clamp an integer coordinate to `[0, dim − 1]` (source lines
`real_x = max(0, min(real_x, sw - 1))`). -/
def clampI (v : Int) (dim : Int) : Int :=
  max 0 (min v (dim - 1))

/-- Boolean substring test, used for the `"qwen3" in model_lower` check. -/
def containsSub (needle hay : List Char) : Bool :=
  if needle.isPrefixOf hay then true
  else
    match hay with
    | [] => false
    | _ :: t => containsSub needle t

/-- Lower-cased character list of a model name (`model_name.lower()`;
model identifiers are ASCII). -/
def lowerChars (s : String) : List Char :=
  s.data.map Char.toLower

/-- Embedding of `GUITools.convert_coordinates` (src/tools/gui_tools.py
lines 45–106).  `dpiScale` models the object's cached `_dpi_scale` field; the
source never consults it inside `convert_coordinates`, and the embedding
mirrors that.  `coordFormat` is `config.COORD_FORMAT`; `screenSize` is the
pyautogui logical screen size.  The float expression `x / 1000 * (sw - 1)`
is the exact rational `x * (sw - 1) / 1000`, rounded Python-style; likewise
`x / iw * sw` is `x * sw / iw`. -/
def convertCoordinates (coordFormat : String) (dpiScale : Option Rat)
    (x y : Int) (imageSize : Option (Int × Int)) (screenSize : Int × Int)
    (modelName : String) : Int × Int :=
  let _ := dpiScale
  let sw := screenSize.1
  let sh := screenSize.2
  let cf :=
    if coordFormat = "auto" then
      if containsSub "qwen3".data (lowerChars modelName) then "normalized_1000"
      else "absolute"
    else coordFormat
  let rxy : Int × Int :=
    if cf = "normalized_1000" then
      (pyRoundFrac (x * (sw - 1)) 1000, pyRoundFrac (y * (sh - 1)) 1000)
    else
      match imageSize with
      | some (iw, ih) =>
        if cf = "absolute" then
          (pyRoundFrac (x * sw) iw, pyRoundFrac (y * sh) ih)
        else (x, y)
      | none => (x, y)
  (clampI rxy.1 sw, clampI rxy.2 sh)

/-- Second definition for the refinement claim about display scaling.  It
follows the specification's words, not the source: after the mode formula,
apply a display-scale correction dividing by the physical-to-logical width
ratio `dpiScale`, then clamp. -/
def specDpiConvert (coordFormat : String) (dpiScale : Rat)
    (x y : Int) (imageSize : Option (Int × Int)) (screenSize : Int × Int)
    (modelName : String) : Int × Int :=
  let sw := screenSize.1
  let sh := screenSize.2
  let cf :=
    if coordFormat = "auto" then
      if containsSub "qwen3".data (lowerChars modelName) then "normalized_1000"
      else "absolute"
    else coordFormat
  let rxy : Int × Int :=
    if cf = "normalized_1000" then
      (pyRoundFrac (x * (sw - 1)) 1000, pyRoundFrac (y * (sh - 1)) 1000)
    else
      match imageSize with
      | some (iw, ih) =>
        if cf = "absolute" then
          (pyRoundFrac (x * sw) iw, pyRoundFrac (y * sh) ih)
        else (x, y)
      | none => (x, y)
  let cx := pyRoundFrac (rxy.1 * (dpiScale.den : Int)) dpiScale.num
  let cy := pyRoundFrac (rxy.2 * (dpiScale.den : Int)) dpiScale.num
  (clampI cx sw, clampI cy sh)

example : convertCoordinates "normalized_1000" none 500 500 none (1920, 1080) "" = (960, 540) := by decide

example : convertCoordinates "absolute" none 100 50 (some (800, 450)) (1920, 1080) "" = (240, 120) := by decide

example : convertCoordinates "absolute" none (-10) 2000 none (1920, 1080) "" = (0, 1079) := by decide

example : specDpiConvert "normalized_1000" 2 500 500 none (1920, 1080) "" = (480, 270) := by decide

/-- Membership test for the whitespace class used by Python's `str.strip`
and the regex `\s` (ASCII whitespace; the texts handled by the agent use no
exotic Unicode whitespace). -/
def isPySpace (c : Char) : Bool :=
  c = ' ' || c = '\t' || c = '\n' || c = '\r' || c = '\x0b' || c = '\x0c'

/-- Strip a literal from the front of a character list, returning the
remainder on success. -/
def chopLit (lit cs : List Char) : Option (List Char) :=
  if lit.isPrefixOf cs then some (cs.drop lit.length) else none

/-- Case-insensitive variant of `chopLit` (the literal is given in lower
case); models a regex literal under `re.IGNORECASE`. -/
def chopLitCI (lit cs : List Char) : Option (List Char) :=
  if (cs.take lit.length).map Char.toLower = lit then some (cs.drop lit.length)
  else none

/-- Split a character list at the first occurrence of `nd`: returns the part
before the occurrence and the part after it. -/
def splitOnFirst (nd : List Char) : List Char → Option (List Char × List Char)
  | [] => (chopLit nd []).map (fun r => ([], r))
  | c :: t =>
    match chopLit nd (c :: t) with
    | some rest => some ([], rest)
    | none => (splitOnFirst nd t).map (fun p => (c :: p.1, p.2))

/-- Fuel-indexed worker for `removeThink`; the fuel is the input length,
which bounds the number of non-overlapping matches. -/
def removeThinkAux : Nat → List Char → List Char
  | 0, cs => cs
  | fuel + 1, cs =>
    match splitOnFirst "<think>".data cs with
    | none => cs
    | some (pre, rest) =>
      match splitOnFirst "</think>".data rest with
      | none => cs
      | some (_, after) => pre ++ removeThinkAux fuel after

/-- Embedding of `re.sub(r'<think>.*?</think>', '', text, flags=re.DOTALL)`
(src/agent/action_parser.py line 93): repeatedly delete the leftmost
`<think>` region through the earliest following `</think>`. -/
def removeThink (cs : List Char) : List Char :=
  removeThinkAux cs.length cs

/-- Fuel-indexed worker for `removeMarkers`. -/
def removeMarkersAux : Nat → List Char → List Char
  | 0, cs => cs
  | fuel + 1, cs =>
    match chopLit "/no_think".data cs with
    | some rest => removeMarkersAux fuel rest
    | none =>
      match chopLit "/think".data cs with
      | some rest => removeMarkersAux fuel rest
      | none =>
        match cs with
        | [] => []
        | c :: t => c :: removeMarkersAux fuel t

/-- Embedding of `re.sub(r'/no_think|/think', '', text)` (line 95); the
alternation tries `/no_think` first at each position, matching Python's
leftmost, first-alternative semantics. -/
def removeMarkers (cs : List Char) : List Char :=
  removeMarkersAux cs.length cs

/-- Python `str.strip()`. -/
def pyStrip (cs : List Char) : List Char :=
  ((cs.dropWhile isPySpace).reverse.dropWhile isPySpace).reverse

/-- Embedding of `re.sub(r'^(步骤|Step)\s*\d+\s*[:：]\s*', '', text,
flags=re.IGNORECASE)` (line 99): the anchored pattern can match only at the
start, so at most one removal happens.  If the leading word matches but the
rest of the pattern does not, the text is unchanged.  The leading
alternation `(步骤|Step)` is factored into `stepWordChop`. -/
def stepWordChop (cs : List Char) : Option (List Char) :=
  match chopLit "步骤".data cs with
  | some r => some r
  | none => chopLitCI "step".data cs

/-- Body of the anchored step-tag removal: after the leading word, greedy
`\s*`, at least one digit, greedy `\s*`, a half- or full-width colon, and
trailing `\s*` are consumed; otherwise the text is unchanged. -/
def dropStepTag (cs : List Char) : List Char :=
  match stepWordChop cs with
  | none => cs
  | some r1 =>
    if ((r1.dropWhile isPySpace).takeWhile Char.isDigit).isEmpty then cs
    else
      match ((r1.dropWhile isPySpace).dropWhile Char.isDigit).dropWhile isPySpace with
      | c :: r4 => if c = ':' || c = '：' then r4.dropWhile isPySpace else cs
      | [] => cs

/-- The preprocessing pipeline of `ActionParser.extract_json` (lines
92–100): think-region removal, marker removal, strip, step-tag removal,
strip. -/
def preprocessText (cs : List Char) : List Char :=
  pyStrip (dropStepTag (pyStrip (removeMarkers (removeThink cs))))

/-- Lazy scan for the regex fragment `[\s\S]*?\}` followed by `\s*` ``` ``` :
at each position first try to close (current char `\x7d` and, after optional
whitespace, a fence), otherwise consume one character as content.  Returns
the consumed characters including the closing brace. -/
def lazyClose : List Char → List Char → Option (List Char)
  | [], _ => none
  | c :: rest, acc =>
    if c = '\x7d' && "```".data.isPrefixOf (rest.dropWhile isPySpace) then
      some (c :: acc).reverse
    else lazyClose rest (c :: acc)

/-- Try to match the fenced-block regex
``` ```(?:json)?\s*(\{[\s\S]*?\})\s*``` ``` at the start of `cs`, returning
capture group 1.  The optional `json` tag cannot cause backtracking (if the
tag is present, the tagless alternative fails at the letter `j`), and the
greedy `\s*` before the closing fence is equivalent to `dropWhile` because a
backtick is not whitespace.  `fenceBodyMatch` handles the part after the
optional `json` tag: `\s*` then the braced group. -/
def fenceBodyMatch (r2 : List Char) : Option (List Char) :=
  match r2.dropWhile isPySpace with
  | c :: r4 =>
    if c = '\x7b' then (lazyClose r4 []).map (fun body => '\x7b' :: body)
    else none
  | [] => none

def matchCodeBlockAt (cs : List Char) : Option (List Char) :=
  match chopLit "```".data cs with
  | none => none
  | some r1 =>
    match chopLit "json".data r1 with
    | some r => fenceBodyMatch r
    | none => fenceBodyMatch r1

/-- Leftmost search for the fenced-block regex (`re.search` tries every
start offset from the left). -/
def findCodeBlock : List Char → Option (List Char)
  | [] => none
  | c :: t =>
    match matchCodeBlockAt (c :: t) with
    | some g => some g
    | none => findCodeBlock t

/-- Embedding of the raw-JSON brace scan (lines 110–122).  `depth` is
`brace_count`; `acc = some a` means `start_idx` has been recorded and `a`
holds the reversed characters consumed since then.  Note the counter also
decrements at unmatched closing braces, exactly as in the source. -/
def braceGo : List Char → Int → Option (List Char) → Option (List Char)
  | [], _, _ => none
  | c :: rest, depth, acc =>
    if c = '\x7b' then
      braceGo rest (depth + 1) (if depth = 0 then some [c] else acc.map (c :: ·))
    else if c = '\x7d' then
      if depth - 1 = 0 then
        match acc with
        | some a => some (c :: a).reverse
        | none => braceGo rest (depth - 1) none
      else braceGo rest (depth - 1) (acc.map (c :: ·))
    else braceGo rest depth (acc.map (c :: ·))

/-- Embedding of `ActionParser.extract_json` (src/agent/action_parser.py
lines 89–122): preprocess, then try the fenced-block regex, then the
brace-depth scan. -/
def extract_json (cs : List Char) : Option (List Char) :=
  let t := preprocessText cs
  match findCodeBlock t with
  | some g => some g
  | none => braceGo t 0 none

example : extract_json "noise \x7b\"a\":\x7b\"b\":1\x7d\x7d trailing".data
    = some "\x7b\"a\":\x7b\"b\":1\x7d\x7d".data := by decide

example : extract_json "```json\n\x7b\"a\": 1\x7d\n```".data
    = some "\x7b\"a\": 1\x7d".data := by decide

example : extract_json "<think>x</think> \x7b\"a\":2\x7d".data
    = some "\x7b\"a\":2\x7d".data := by decide

example : extract_json "```json\n\x7b\"a\": \"/think\"\x7d\n```".data
    = some "\x7b\"a\": \"\"\x7d".data := by decide

example : extract_json "Step 1: \x7b\"a\":3\x7d".data
    = some "\x7b\"a\":3\x7d".data := by decide

example : extract_json "no braces here".data = none := by decide

example : extract_json "\x7d \x7ba\x7d".data = none := by decide

/-- The closed `ActionType` enumeration (src/agent/action_parser.py lines
12–20). -/
inductive ActionType where
  | click
  | move
  | type
  | hotkey
  | scroll
  | screenshot
  | wait
  | done
deriving DecidableEq

/-- The string value of an `ActionType` member (`.value`). -/
def kindStr : ActionType → String
  | .click => "click"
  | .move => "move"
  | .type => "type"
  | .hotkey => "hotkey"
  | .scroll => "scroll"
  | .screenshot => "screenshot"
  | .wait => "wait"
  | .done => "done"

/-- Embedding of the enum value lookup `ActionType(action_type_str)`:
succeeds exactly on the eight member strings. -/
def parseKind : String → Option ActionType
  | "click" => some .click
  | "move" => some .move
  | "type" => some .type
  | "hotkey" => some .hotkey
  | "scroll" => some .scroll
  | "screenshot" => some .screenshot
  | "wait" => some .wait
  | "done" => some .done
  | _ => none

/-- Validated agent action (`AgentAction`): a member kind plus the fully
defaulted parameter record (kept as a JSON object, as the source stores a
`Dict[str, Any]`). -/
structure AgentAction where
  type : ActionType
  params : List (String × JVal)

/-- Full agent response (`AgentResponse`): thought, action, status. -/
structure AgentResponse where
  thought : String
  action : AgentAction
  status : String

/-- Exact rational with numerator `n` and denominator 1. -/
def ratOfInt (n : Int) : Rat :=
  ⟨n, 1, Nat.one_ne_zero, Nat.coprime_one_right _⟩

/-- The float default `0.02` of `TypeParams.interval` as an exact rational. -/
def ratFiftieth : Rat :=
  ⟨1, 50, by decide, Nat.coprime_one_left _⟩

/-- Digit-string to natural number. -/
def parseDigits (l : List Char) : Option Nat :=
  if l ≠ [] && l.all Char.isDigit then
    some (l.foldl (fun acc c => 10 * acc + (c.toNat - '0'.toNat)) 0)
  else none

/-- Optionally signed decimal integer literal. -/
def parseIntChars : List Char → Option Int
  | '-' :: ds => (parseDigits ds).map (fun n => -(n : Int))
  | '+' :: ds => (parseDigits ds).map (fun n => (n : Int))
  | ds => (parseDigits ds).map (fun n => (n : Int))

/-- Pydantic v2 lax coercion into an `int` field: accepts Python ints,
integral floats, and decimal integer strings; rejects bools, null and
everything else. -/
def asInt : JVal → Option Int
  | .jint n => some n
  | .jnum q => if q.den = 1 then some q.num else none
  | .jstr s => parseIntChars (pyStrip s.data)
  | _ => none

/-- Pydantic v2 lax coercion into a `float` field (integral numeric strings
only are modelled; no claim exercises fractional strings). -/
def asRat : JVal → Option Rat
  | .jint n => some (ratOfInt n)
  | .jnum q => some q
  | .jstr s => (parseIntChars (pyStrip s.data)).map ratOfInt
  | _ => none

/-- Pydantic v2 coercion into a `str` field: strings only (v2 does not
stringify numbers). -/
def asStr : JVal → Option String
  | .jstr s => some s
  | _ => none

/-- Coercion into a `list[str]` field. -/
def asStrList : JVal → Option (List String)
  | .jarr xs => xs.mapM asStr
  | _ => none

/-- Coercion into a `list[int]` field. -/
def asIntList : JVal → Option (List Int)
  | .jarr xs => xs.mapM asInt
  | _ => none

/-- Required pydantic field: missing or uncoercible values are validation
errors (the pydantic error text is abstracted). -/
def reqField {α : Type} (po : List (String × JVal)) (k : String)
    (conv : JVal → Option α) : Except String α :=
  match jget po k with
  | some v =>
    match conv v with
    | some a => .ok a
    | none => .error ("invalid value for field " ++ k)
  | none => .error ("missing required field " ++ k)

/-- Optional pydantic field with a default; a present but uncoercible value
(including null for non-Optional fields) is a validation error. -/
def optField {α : Type} (po : List (String × JVal)) (k : String)
    (conv : JVal → Option α) (dflt : α) : Except String α :=
  match jget po k with
  | some v =>
    match conv v with
    | some a => .ok a
    | none => .error ("invalid value for field " ++ k)
  | none => .ok dflt

/-- `Optional[int] = None` pydantic field: missing and null both give
`none`. -/
def optNullIntField (po : List (String × JVal)) (k : String) :
    Except String (Option Int) :=
  match jget po k with
  | none => .ok none
  | some .jnull => .ok none
  | some v =>
    match asInt v with
    | some a => .ok (some a)
    | none => .error ("invalid value for field " ++ k)

/-- JSON rendering of an `Optional[int]` dump value. -/
def optIntJ : Option Int → JVal
  | none => .jnull
  | some n => .jint n

/-- Embedding of the per-kind pydantic validators (lines 23–59 and 78–87)
followed by `model_dump()` (line 210): on success, returns the fully
defaulted parameter object with the fields in declaration order. -/
def validateParams : ActionType → List (String × JVal) →
    Except String (List (String × JVal))
  | .click, po => do
    let x ← reqField po "x" asInt
    let y ← reqField po "y" asInt
    let button ← optField po "button" asStr "left"
    let clicks ← optField po "clicks" asInt 1
    .ok [("x", .jint x), ("y", .jint y), ("button", .jstr button),
         ("clicks", .jint clicks)]
  | .move, po => do
    let x ← reqField po "x" asInt
    let y ← reqField po "y" asInt
    .ok [("x", .jint x), ("y", .jint y)]
  | .type, po => do
    let text ← reqField po "text" asStr
    let interval ← optField po "interval" asRat ratFiftieth
    .ok [("text", .jstr text), ("interval", .jnum interval)]
  | .hotkey, po => do
    let keys ← reqField po "keys" asStrList
    .ok [("keys", .jarr (keys.map .jstr))]
  | .scroll, po => do
    let amount ← reqField po "amount" asInt
    let x ← optNullIntField po "x"
    let y ← optNullIntField po "y"
    .ok [("amount", .jint amount), ("x", optIntJ x), ("y", optIntJ y)]
  | .wait, po => do
    let seconds ← optField po "seconds" asRat (ratOfInt 1)
    .ok [("seconds", .jnum seconds)]
  | .done, po => do
    let message ← optField po "message" asStr "Task completed"
    .ok [("message", .jstr message)]
  | .screenshot, po =>
    match jget po "region" with
    | none => .ok [("region", .jnull)]
    | some .jnull => .ok [("region", .jnull)]
    | some v =>
      match asIntList v with
      | some l => .ok [("region", .jarr (l.map .jint))]
      | none => .error "invalid value for field region"

/-- A terminal `done` action with the given message parameter. -/
def doneAct (m : String) : AgentAction :=
  ⟨.done, [("message", .jstr m)]⟩

/-- The response produced when constructing the pydantic `AgentResponse`
itself raises and control reaches the outer `except Exception` handler
(lines 227–235); the Python exception text is abstracted to `m`. -/
def exceptTurn (m : String) : AgentResponse :=
  ⟨"Validation error: " ++ m, doneAct m, "failed"⟩

/-- Build an `AgentResponse` on a failure branch whose `status` is the
literal `"failed"`: pydantic still requires `thought` to be a string, and a
non-string thought diverts to the outer exception handler. -/
def mkChecked (thoughtV : JVal) (a : AgentAction) (st : String) :
    AgentResponse :=
  match thoughtV with
  | .jstr t => ⟨t, a, st⟩
  | _ => exceptTurn "thought is not a string"

/-- Build the success `AgentResponse` (line 221): both `thought` and
`status` must be strings, otherwise pydantic raises and the outer handler
produces the exception turn. -/
def mkFull (thoughtV statusV : JVal) (a : AgentAction) : AgentResponse :=
  match thoughtV, statusV with
  | .jstr t, .jstr st => ⟨t, a, st⟩
  | _, _ => exceptTurn "field is not a string"

/-- Parameter validation stage (lines 205–219): a non-object `params` value
makes the `validator(**action_params)` call raise `TypeError`, which the
inner `except ValidationError` does not catch, so it reaches the outer
handler. -/
def validateKindParams (thoughtV statusV : JVal) (k : ActionType)
    (paramsV : JVal) : AgentResponse :=
  match paramsV with
  | .jobj po =>
    match validateParams k po with
    | .ok vp => mkFull thoughtV statusV ⟨k, vp⟩
    | .error em => mkChecked thoughtV (doneAct ("Invalid params: " ++ em)) "failed"
  | _ => exceptTurn "params must be a mapping"

/-- Action-kind resolution for an object-shaped `action` (lines 189–203): a
missing `type` key defaults to the string `"done"`; a non-member string
raises `ValueError` inside `ActionType(...)` and takes the unknown-type
branch, as do hashable non-string values, while unhashable values (list or
dict) raise `TypeError` and reach the outer handler. -/
def validateActionObj (thoughtV statusV : JVal) (ao : List (String × JVal)) :
    AgentResponse :=
  let paramsV := (jget ao "params").getD (.jobj [])
  match (jget ao "type").getD (.jstr "done") with
  | .jstr ts =>
    match parseKind ts with
    | none => mkChecked thoughtV (doneAct ("Unknown action type: " ++ ts)) "failed"
    | some k => validateKindParams thoughtV statusV k paramsV
  | .jarr _ => exceptTurn "unhashable action type"
  | .jobj _ => exceptTurn "unhashable action type"
  | tv => mkChecked thoughtV (doneAct ("Unknown action type: " ++ jvalDisplay tv)) "failed"

/-- Action-shape check (lines 176–187): a non-object `action` value
degrades to a terminal `done` action. -/
def validateAction (thoughtV statusV actionV : JVal) : AgentResponse :=
  match actionV with
  | .jobj ao => validateActionObj thoughtV statusV ao
  | _ =>
    mkChecked thoughtV (doneAct ("Invalid action format: " ++ pyTypeName actionV)) "failed"

/-- Embedding of the structure-validation part of `ActionParser.parse`
(lines 159–235), applied to the decoded JSON value: top-level shape check,
field defaulting (`thought`, `status`, `action`), then the staged action
validation above. -/
def validateData (v : JVal) : AgentResponse :=
  match v with
  | .jobj o =>
    validateAction ((jget o "thought").getD (.jstr "No thought provided"))
      ((jget o "status").getD (.jstr "in_progress"))
      ((jget o "action").getD (.jobj []))
  | _ => ⟨"Response is not a dict: " ++ pyTypeName v, doneAct "Invalid response format", "failed"⟩

/-- The turn produced when no JSON candidate is found (lines 137–145);
`response[:200]` is the 200-character prefix. -/
def noJsonTurn (response : List Char) : AgentResponse :=
  ⟨"Failed to find JSON in response: " ++ String.mk (response.take 200),
   doneAct "Parse error: No JSON found", "failed"⟩

/-- Embedding of `ActionParser.parse` (lines 124–235) restricted to the
executions in which `json.loads` returns: `dec` is an arbitrary decoder
returning either a JSON value or a `json.JSONDecodeError` message.
`json.loads` can also raise past the `except json.JSONDecodeError` at line
149 — e.g. `RecursionError` on deeply nested candidates — and then `parse`
itself raises; that path is modelled by `parseRun` over `DecodeOutcome`
below, which agrees with this function on every returning decode
(`parseRun_ok_decoder`).  The Python falsy test `if not json_str` also
treats an empty candidate as absent; `extract_json` can in fact never
return an empty string, but the embedding mirrors the check. -/
def parse (dec : List Char → Except String JVal) (response : List Char) :
    AgentResponse :=
  match extract_json response with
  | none => noJsonTurn response
  | some js =>
    if js.isEmpty then noJsonTurn response
    else
      match dec js with
      | .error e =>
        ⟨"Failed to parse JSON: " ++ e, doneAct ("JSON parse error: " ++ e), "failed"⟩
      | .ok v => validateData v

example :
    validateParams .click [("x", .jint 5), ("y", .jint 7)]
      = .ok [("x", .jint 5), ("y", .jint 7), ("button", .jstr "left"),
             ("clicks", .jint 1)] := rfl

example :
    (validateData (.jobj [("action", .jobj [])])).status = "in_progress" := rfl

example :
    (validateData (.jobj [("action", .jobj [])])).thought
      = "No thought provided" := rfl

example :
    (parse (fun _ => .error "boom") "hello".data).status = "failed" := rfl

example :
    (parse (fun _ => .error "boom") "hello".data).action.type
      = ActionType.done := rfl

/-- Static context of a `GUITools` instance: the configured coordinate
format, the pyautogui logical screen size, and the cached `_dpi_scale`
field. -/
structure GuiConfig where
  coordFormat : String
  screen : Int × Int
  dpiScale : Option Rat

/-- Input-injection primitives invoked through pyautogui, recorded as
data.  `done` and `screenshot` actions invoke no primitive. -/
inductive GuiOp where
  | click (x y : Int) (button : String) (clicks : Int)
  | move (x y : Int)
  | typeText (text : String)
  | hotkey (keys : List String)
  | scroll (amount : Int) (x y : Option Int)
  | wait (seconds : Rat)
deriving DecidableEq

/-- Result of `GUITools.execute_action`: the `(success, message)` pair of
the source, plus the list of injection primitives performed.  The pyautogui
calls themselves are external; their sporadic exception paths (which the
source logs and converts to `success = False`) are modelled as always
succeeding. -/
structure ExecOutcome where
  success : Bool
  message : String
  ops : List GuiOp

/-- The `params.get(k, 0)` integer coordinate access (lines 289–290 etc.):
missing keys default to 0; non-integer values cannot occur after validation
and are abstracted to the same default. -/
def coordD (params : List (String × JVal)) (k : String) : Int :=
  match jget params k with
  | some (.jint n) => n
  | some _ => 0
  | none => 0

/-- The `params.get(k)` optional coordinate access of the scroll branch
(lines 316–317): missing and null both give `none`. -/
def coordOpt (params : List (String × JVal)) (k : String) : Option Int :=
  match jget params k with
  | some (.jint n) => some n
  | _ => none

/-- Embedding of `GUITools.execute_action` (src/tools/gui_tools.py lines
260–339).  A non-string `type` value can never equal one of the eight
branch literals, so it reaches the unknown-type branch; its f-string
rendering is abstracted by `jvalDisplay`. -/
def executeAction (cfg : GuiConfig) (action : JVal)
    (imageSize : Option (Int × Int)) (modelName : String) : ExecOutcome :=
  match action with
  | .jobj ao =>
    let ts :=
      match jget ao "type" with
      | some (.jstr s) => s
      | some v => jvalDisplay v
      | none => ""
    let params :=
      match jget ao "params" with
      | some (.jobj po) => po
      | _ => []
    if ts = "click" then
      let rawX := coordD params "x"
      let rawY := coordD params "y"
      let c := convertCoordinates cfg.coordFormat cfg.dpiScale rawX rawY
        imageSize cfg.screen modelName
      let button :=
        match jget params "button" with
        | some (.jstr s) => s
        | _ => "left"
      let clicks :=
        match jget params "clicks" with
        | some (.jint n) => n
        | _ => 1
      ⟨true,
       "Clicked at (" ++ toString c.1 ++ ", " ++ toString c.2 ++ ") [raw: ("
         ++ toString rawX ++ ", " ++ toString rawY ++ ")]",
       [.click c.1 c.2 button clicks]⟩
    else if ts = "move" then
      let rawX := coordD params "x"
      let rawY := coordD params "y"
      let c := convertCoordinates cfg.coordFormat cfg.dpiScale rawX rawY
        imageSize cfg.screen modelName
      ⟨true,
       "Moved to (" ++ toString c.1 ++ ", " ++ toString c.2 ++ ") [raw: ("
         ++ toString rawX ++ ", " ++ toString rawY ++ ")]",
       [.move c.1 c.2]⟩
    else if ts = "type" then
      let text :=
        match jget params "text" with
        | some (.jstr s) => s
        | _ => ""
      ⟨true, "Typed: " ++ String.mk (text.data.take 50) ++ "...",
       [.typeText text]⟩
    else if ts = "hotkey" then
      let keys :=
        match jget params "keys" with
        | some (.jarr vs) => vs.map (fun v => (asStr v).getD "")
        | _ => []
      ⟨true, "Pressed: " ++ String.intercalate "+" keys, [.hotkey keys]⟩
    else if ts = "scroll" then
      let amount :=
        match jget params "amount" with
        | some (.jint n) => n
        | _ => 0
      let rx := coordOpt params "x"
      let ry := coordOpt params "y"
      match rx, ry with
      | some a, some b =>
        let c := convertCoordinates cfg.coordFormat cfg.dpiScale a b
          imageSize cfg.screen modelName
        ⟨true, "Scrolled " ++ toString amount,
         [.scroll amount (some c.1) (some c.2)]⟩
      | _, _ =>
        ⟨true, "Scrolled " ++ toString amount, [.scroll amount rx ry]⟩
    else if ts = "wait" then
      let seconds :=
        match jget params "seconds" with
        | some (.jint n) => ratOfInt n
        | some (.jnum q) => q
        | _ => ratOfInt 1
      ⟨true, "Waited " ++ toString seconds.num ++ "s", [.wait seconds]⟩
    else if ts = "done" then
      let message :=
        match jget params "message" with
        | none => "Task completed"
        | some (.jstr m) => m
        | some v => jvalDisplay v
      ⟨true, message, []⟩
    else if ts = "screenshot" then
      ⟨true, "Screenshot requested", []⟩
    else
      ⟨false, "Unknown action type: " ++ ts, []⟩
  | _ => ⟨false, "Invalid action format: " ++ pyTypeName action, []⟩

/-- One recorded step of a run (orchestrator `Step` dataclass, minus the
wall-clock timestamp). -/
structure Step where
  step_number : Nat
  screenshot_b64 : String
  thought : String
  action_type : String
  action_params : List (String × JVal)
  action_result : String
  status : String

/-- Result of a task run (orchestrator `TaskResult`, minus `total_time`). -/
structure TaskResult where
  success : Bool
  message : String
  steps : List Step

/-- External collaborators of one run: the JSON decoder, the model's raw
text per step number, and the capture per step number.  Indexing the model
by step number is general: within one run the conversation history is a
function of the task and the earlier responses, so any history-dependent
model is representable. -/
structure LoopEnv where
  dec : List Char → Except String JVal
  llmResponse : Nat → List Char
  shot : Nat → String
  gui : GuiConfig

/-- The orchestrator's execution call (src/agent/orchestrator.py lines
124–129): the action dict is rebuilt from the parsed turn and
`execute_action` is invoked with no image size and an empty model name. -/
def dispatchAction (cfg : GuiConfig) (parsed : AgentResponse) : ExecOutcome :=
  executeAction cfg
    (.jobj [("type", .jstr (kindStr parsed.action.type)),
            ("params", .jobj parsed.action.params)])
    none ""

/-- The run message taken from a terminal action's params (lines 160–165):
`params.get("message", "Task completed")`; non-string message values cannot
occur after validation and their rendering is abstracted. -/
def doneMessage (params : List (String × JVal)) : String :=
  match jget params "message" with
  | none => "Task completed"
  | some (.jstr m) => m
  | some v => jvalDisplay v

/-- Embedding of the body of `Orchestrator.run_task` (lines 105–192).  The
fuel counts the remaining iterations of `for step_num in range(1,
max_steps + 1)`; exhausted fuel is the fall-through to the max-steps
result.  The cooperative external stop flag (`is_running`) is not modelled:
no claim concerns mid-run cancellation.  The inter-step delay and the
history bookkeeping have no observable effect here (the model collaborator
is indexed by step number). -/
def runLoop (env : LoopEnv) (maxSteps : Nat) :
    Nat → Nat → List Step → TaskResult
  | 0, _, steps =>
    ⟨false, "Max steps (" ++ toString maxSteps ++ ") reached without completion",
     steps⟩
  | fuel + 1, stepNum, steps =>
    let parsed := parse env.dec (env.llmResponse stepNum)
    let out := dispatchAction env.gui parsed
    let step : Step :=
      ⟨stepNum, env.shot stepNum, parsed.thought, kindStr parsed.action.type,
       parsed.action.params, out.message, parsed.status⟩
    let steps' := steps ++ [step]
    if parsed.status = "completed" ∨ parsed.action.type = ActionType.done then
      ⟨true, doneMessage parsed.action.params, steps'⟩
    else if parsed.status = "failed" then
      ⟨false, "Task failed: " ++ parsed.thought, steps'⟩
    else runLoop env maxSteps fuel (stepNum + 1) steps'

/-- Embedding of `Orchestrator.run_task`: run the loop from step 1 with an
empty step list. -/
def runTask (env : LoopEnv) (maxSteps : Nat) : TaskResult :=
  runLoop env maxSteps maxSteps 1 []

/-- A run whose model emits unparsable text on every step: the synthetic
parse-failure turn (action `done`, status `failed`) terminates the run on
step 1. -/
def parseFailEnv : LoopEnv :=
  ⟨fun _ => .error "boom", fun _ => "no json".data, fun _ => "",
   ⟨"auto", (1920, 1080), none⟩⟩

example : (runTask parseFailEnv 5).success = true := rfl

example : (runTask parseFailEnv 5).message = "Parse error: No JSON found" := rfl

example : (runTask parseFailEnv 5).steps.length = 1 := rfl

/-- Under the `auto` or `absolute` format, with no image size and an empty
model name, the conversion falls back to the raw coordinates, clamped:
`auto` resolves to `absolute` because the empty model name does not contain
`qwen3`, and `absolute` without an image size takes the raw-passthrough
branch. -/
theorem convert_fallback_raw (cf : String) (d : Option Rat) (x y : Int)
    (scr : Int × Int) (h : cf = "auto" ∨ cf = "absolute") :
    convertCoordinates cf d x y none scr "" = (clampI x scr.1, clampI y scr.2) := by
  rcases h with rfl | rfl <;> rfl

/-- C1, counterexample.  The claim asserts that after the mode formula a
display-scale correction by the physical/logical width ratio is applied.
With ratio 2, normalized input (500, 500) and screen (1920, 1080), the
spec-mandated corrected result is (480, 270), but the code returns
(960, 540): `convert_coordinates` never consults the DPI scale. -/
theorem C1_counterexample :
    convertCoordinates "normalized_1000" (some (ratOfInt 2)) 500 500 none (1920, 1080) ""
        ≠ specDpiConvert "normalized_1000" (ratOfInt 2) 500 500 none (1920, 1080) ""
      ∧ convertCoordinates "normalized_1000" (some (ratOfInt 2)) 500 500 none (1920, 1080) ""
          = (960, 540)
      ∧ specDpiConvert "normalized_1000" (ratOfInt 2) 500 500 none (1920, 1080) ""
          = (480, 270) := by
  refine ⟨by decide, by decide, by decide⟩

/-- C1, amended.  No display-scale correction is applied anywhere in
`convert_coordinates`: its result is entirely independent of the cached
physical/logical width ratio (the `_get_dpi_scale` helper exists in the
class but is never invoked during conversion), so the returned pair is just
the resolved mode's formula result, clamped. -/
theorem C1_dpi_independent (cf : String) (d d' : Option Rat) (x y : Int)
    (img : Option (Int × Int)) (scr : Int × Int) (mn : String) :
    convertCoordinates cf d x y img scr mn = convertCoordinates cf d' x y img scr mn := by
  rfl

/-- C1, witness for the amended theorem: with and without a cached DPI
ratio of 2 the conversion agrees. -/
theorem C1_dpi_independent_witness :
    convertCoordinates "normalized_1000" (some (ratOfInt 2)) 500 500 none (1920, 1080) ""
      = convertCoordinates "normalized_1000" none 500 500 none (1920, 1080) "" :=
  C1_dpi_independent "normalized_1000" (some (ratOfInt 2)) none 500 500 none (1920, 1080) ""

/-- Elements of `dropWhile` output come from the input list. -/
theorem mem_of_dropWhile {α : Type} {p : α → Bool} {a : α} :
    ∀ {l : List α}, a ∈ l.dropWhile p → a ∈ l := by
  intro l
  induction l with
  | nil => intro h; exact h
  | cons c t ih =>
    intro h
    rw [List.dropWhile_cons] at h
    by_cases hc : p c = true
    · simp only [hc, if_true] at h
      exact List.mem_cons_of_mem _ (ih h)
    · simp only [hc, if_false] at h
      exact h

/-- Elements of a successful `chopLit` remainder come from the input. -/
theorem mem_of_chopLit {lit cs r : List Char} {a : Char}
    (h : chopLit lit cs = some r) (ha : a ∈ r) : a ∈ cs := by
  unfold chopLit at h
  split at h
  · cases h; exact List.drop_subset _ _ ha
  · cases h

/-- Elements of a successful `chopLitCI` remainder come from the input. -/
theorem mem_of_chopLitCI {lit cs r : List Char} {a : Char}
    (h : chopLitCI lit cs = some r) (ha : a ∈ r) : a ∈ cs := by
  unfold chopLitCI at h
  split at h
  · cases h; exact List.drop_subset _ _ ha
  · cases h

/-- Elements of a successful `stepWordChop` remainder come from the
input. -/
theorem mem_of_stepWordChop {cs r : List Char} {a : Char}
    (h : stepWordChop cs = some r) (ha : a ∈ r) : a ∈ cs := by
  unfold stepWordChop at h
  split at h
  · cases h; exact mem_of_chopLit (by assumption) ha
  · exact mem_of_chopLitCI h ha

/-- Elements of both parts of a successful `splitOnFirst` come from the
input. -/
theorem mem_of_splitOnFirst {nd : List Char} :
    ∀ {cs p s : List Char}, splitOnFirst nd cs = some (p, s) →
      (∀ a ∈ p, a ∈ cs) ∧ (∀ a ∈ s, a ∈ cs) := by
  intro cs
  induction cs with
  | nil =>
    intro p s h
    unfold splitOnFirst at h
    rcases hc : chopLit nd [] with _ | r <;> rw [hc] at h
    · cases h
    · simp only [Option.map_some'] at h
      cases h
      exact ⟨fun a ha => absurd ha (List.not_mem_nil a),
             fun a ha => mem_of_chopLit hc ha⟩
  | cons c t ih =>
    intro p s h
    unfold splitOnFirst at h
    split at h
    · cases h
      exact ⟨fun a ha => absurd ha (List.not_mem_nil a),
             fun a ha => mem_of_chopLit (by assumption) ha⟩
    · simp only [Option.map_eq_some'] at h
      obtain ⟨⟨p', s'⟩, hr, heq⟩ := h
      cases heq
      obtain ⟨h1, h2⟩ := ih hr
      refine ⟨fun a ha => ?_, fun a ha => List.mem_cons_of_mem _ (h2 a ha)⟩
      rcases List.mem_cons.mp ha with rfl | ha'
      · exact List.mem_cons_self _ _
      · exact List.mem_cons_of_mem _ (h1 a ha')

/-- Elements surviving think-region removal come from the input. -/
theorem mem_of_removeThinkAux :
    ∀ (fuel : Nat) {cs : List Char} {a : Char},
      a ∈ removeThinkAux fuel cs → a ∈ cs := by
  intro fuel
  induction fuel with
  | zero => intro cs a h; exact h
  | succ n ih =>
    intro cs a h
    simp only [removeThinkAux] at h
    split at h
    · exact h
    · rename_i pre rest hsplit1
      split at h
      · exact h
      · rename_i mid after hsplit2
        rcases List.mem_append.mp h with hp | hr
        · exact (mem_of_splitOnFirst hsplit1).1 a hp
        · exact (mem_of_splitOnFirst hsplit1).2 a
            ((mem_of_splitOnFirst hsplit2).2 a (ih hr))

/-- Elements surviving marker removal come from the input. -/
theorem mem_of_removeMarkersAux :
    ∀ (fuel : Nat) {cs : List Char} {a : Char},
      a ∈ removeMarkersAux fuel cs → a ∈ cs := by
  intro fuel
  induction fuel with
  | zero => intro cs a h; exact h
  | succ n ih =>
    intro cs a h
    simp only [removeMarkersAux] at h
    split at h
    · exact mem_of_chopLit (by assumption) (ih h)
    · split at h
      · exact mem_of_chopLit (by assumption) (ih h)
      · split at h
        · exact h
        · rcases List.mem_cons.mp h with rfl | h'
          · exact List.mem_cons_self _ _
          · exact List.mem_cons_of_mem _ (ih h')

/-- Elements surviving `pyStrip` come from the input. -/
theorem mem_of_pyStrip {cs : List Char} {a : Char}
    (h : a ∈ pyStrip cs) : a ∈ cs := by
  unfold pyStrip at h
  rw [List.mem_reverse] at h
  have h2 := mem_of_dropWhile h
  rw [List.mem_reverse] at h2
  exact mem_of_dropWhile h2

/-- Elements surviving step-tag removal come from the input. -/
theorem mem_of_dropStepTag {cs : List Char} {a : Char}
    (h : a ∈ dropStepTag cs) : a ∈ cs := by
  unfold dropStepTag at h
  split at h
  · exact h
  · rename_i r1 hword
    split at h
    · exact h
    · split at h
      · rename_i c r4 heq
        split at h
        · have h4 : a ∈ c :: r4 := List.mem_cons_of_mem _ (mem_of_dropWhile h)
          rw [← heq] at h4
          have h5 := mem_of_dropWhile h4
          have h6 := mem_of_dropWhile h5
          have h7 := mem_of_dropWhile h6
          exact mem_of_stepWordChop hword h7
        · exact h
      · exact h

/-- Elements surviving the whole preprocessing pipeline come from the
input text. -/
theorem mem_of_preprocess {cs : List Char} {a : Char}
    (h : a ∈ preprocessText cs) : a ∈ cs :=
  mem_of_removeThinkAux _
    (mem_of_removeMarkersAux _
      (mem_of_pyStrip (mem_of_dropStepTag (mem_of_pyStrip h))))

/-- A successful body match requires an opening brace in its input. -/
theorem fenceBodyMatch_mem {r2 w : List Char}
    (h : fenceBodyMatch r2 = some w) : '\x7b' ∈ r2 := by
  unfold fenceBodyMatch at h
  split at h
  · rename_i c r4 heq
    split at h
    · rename_i hc
      subst hc
      have h4 : '\x7b' ∈ '\x7b' :: r4 := List.mem_cons_self _ _
      rw [← heq] at h4
      exact mem_of_dropWhile h4
    · cases h
  · cases h

/-- A successful fenced-block match requires an opening brace in the
text. -/
theorem matchCodeBlockAt_mem {cs w : List Char}
    (h : matchCodeBlockAt cs = some w) : '\x7b' ∈ cs := by
  unfold matchCodeBlockAt at h
  split at h
  · cases h
  · rename_i r1 hchop
    split at h
    · rename_i r hj
      exact mem_of_chopLit hchop (mem_of_chopLit hj (fenceBodyMatch_mem h))
    · exact mem_of_chopLit hchop (fenceBodyMatch_mem h)

/-- Text without an opening brace has no fenced-block match anywhere. -/
theorem findCodeBlock_eq_none {cs : List Char} (h : '\x7b' ∉ cs) :
    findCodeBlock cs = none := by
  induction cs with
  | nil => rfl
  | cons c t ih =>
    have hm : matchCodeBlockAt (c :: t) = none := by
      rcases hm : matchCodeBlockAt (c :: t) with _ | w
      · rfl
      · exact absurd (matchCodeBlockAt_mem hm) h
    simp only [findCodeBlock, hm]
    exact ih (fun h' => h (List.mem_cons_of_mem _ h'))

/-- The brace scan with no recorded start returns nothing on text without
an opening brace. -/
theorem braceGo_eq_none :
    ∀ {cs : List Char} (d : Int), '\x7b' ∉ cs → braceGo cs d none = none := by
  intro cs
  induction cs with
  | nil => intro d _; rfl
  | cons c t ih =>
    intro d h
    have hc : ¬(c = '\x7b') := fun hc => h (hc ▸ List.mem_cons_self _ _)
    have ht : '\x7b' ∉ t := fun h' => h (List.mem_cons_of_mem _ h')
    simp only [braceGo, hc, if_false, Option.map_none']
    split
    · split <;> exact ih _ ht
    · exact ih _ ht

/-- C9: when no fenced code block matches, extraction is exactly the
left-to-right brace-depth scan of the preprocessed text; the noise example
returns the first balanced span; and text with no opening brace yields
nothing. -/
theorem C9_brace_scan :
    (∀ cs : List Char, findCodeBlock (preprocessText cs) = none →
        extract_json cs = braceGo (preprocessText cs) 0 none)
      ∧ extract_json "noise \x7b\"a\":\x7b\"b\":1\x7d\x7d trailing".data
          = some "\x7b\"a\":\x7b\"b\":1\x7d\x7d".data
      ∧ (∀ cs : List Char, '\x7b' ∉ cs → extract_json cs = none) := by
  refine ⟨fun cs h => ?_, by decide, fun cs h => ?_⟩
  · simp only [extract_json, h]
  · have hp : '\x7b' ∉ preprocessText cs := fun hm => h (mem_of_preprocess hm)
    simp only [extract_json, findCodeBlock_eq_none hp]
    exact braceGo_eq_none 0 hp

/-- C9, witness: a braceless text extracts to nothing, via the theorem's
third conjunct. -/
theorem C9_brace_scan_witness : extract_json "no braces here".data = none :=
  C9_brace_scan.2.2 "no braces here".data (by decide)

/-- Failure branches built through `mkChecked` always carry a terminal
`done` action and status `failed`, whether or not the thought is a string. -/
theorem mkChecked_done (tv : JVal) (m : String) :
    (mkChecked tv (doneAct m) "failed").action.type = ActionType.done
      ∧ (mkChecked tv (doneAct m) "failed").status = "failed" := by
  cases tv <;> exact ⟨rfl, rfl⟩

/-- C3, counterexample.  The claim includes "action lacks a `type` key" as
a validation failure, but the source defaults a missing `type` to the
string `"done"` (line 189): the object `\x7b"action": \x7b\x7d\x7d`
validates successfully with the defaulted status `in_progress`, not
`failed`. -/
theorem C3_counterexample :
    (validateData (.jobj [("action", .jobj [])])).status = "in_progress"
      ∧ (validateData (.jobj [("action", .jobj [])])).status ≠ "failed"
      ∧ (validateData (.jobj [("action", .jobj [])])).action.type = ActionType.done
      ∧ (validateData (.jobj [("action", .jobj [])])).thought = "No thought provided" :=
  ⟨rfl, by decide, rfl, rfl⟩

/-- C3, amended.  A non-object `action` value, or an action `type` string
outside the `ActionType` enumeration, produces a terminal `done` action
with status `failed`; a missing `type` key, however, silently defaults to
the kind `done` and validation proceeds as a success, the turn keeping the
payload's own (defaulted) `thought` and `status`. -/
theorem C3_action_validation :
    (∀ (o : List (String × JVal)) (v : JVal),
        jget o "action" = some v → (∀ ao, v ≠ .jobj ao) →
        (validateData (.jobj o)).action.type = ActionType.done
          ∧ (validateData (.jobj o)).status = "failed")
      ∧ (∀ (o ao : List (String × JVal)) (ts : String),
          jget o "action" = some (.jobj ao) → jget ao "type" = some (.jstr ts) →
          parseKind ts = none →
          (validateData (.jobj o)).action.type = ActionType.done
            ∧ (validateData (.jobj o)).status = "failed")
      ∧ (∀ o ao : List (String × JVal),
          jget o "action" = some (.jobj ao) → jget ao "type" = none →
          jget ao "params" = none → jget o "thought" = none → jget o "status" = none →
          validateData (.jobj o)
            = ⟨"No thought provided",
               ⟨ActionType.done, [("message", .jstr "Task completed")]⟩,
               "in_progress"⟩) := by
  refine ⟨fun o v h1 h2 => ?_, fun o ao ts h1 h2 h3 => ?_, fun o ao h1 h2 h3 h4 h5 => ?_⟩
  · simp only [validateData, h1, Option.getD]
    cases v with
    | jobj ao => exact absurd rfl (h2 ao)
    | jnull => exact mkChecked_done _ _
    | jbool b => exact mkChecked_done _ _
    | jint n => exact mkChecked_done _ _
    | jnum q => exact mkChecked_done _ _
    | jstr s => exact mkChecked_done _ _
    | jarr xs => exact mkChecked_done _ _
  · simp only [validateData, h1, Option.getD, validateAction, validateActionObj, h2, h3]
    exact mkChecked_done _ _
  · simp only [validateData, h1, h4, h5, Option.getD, validateAction,
      validateActionObj, h2, h3]
    rfl

/-- C3, witness for the amended theorem: a string-valued `action` field
degrades to the terminal failed turn, via the first conjunct. -/
theorem C3_action_validation_witness :
    (validateData (.jobj [("action", .jstr "x")])).action.type = ActionType.done
      ∧ (validateData (.jobj [("action", .jstr "x")])).status = "failed" :=
  C3_action_validation.1 [("action", .jstr "x")] (.jstr "x") rfl
    (fun _ h => JVal.noConfusion h)

/-- C10: click-parameter validation fills the defaults `button = "left"`
and `clicks = 1` when `x` and `y` are given and the optional fields are
absent, and re-validating an already validated, fully defaulted click
parameter object returns it unchanged (idempotence). -/
theorem C10_click_defaults :
    (∀ (o : List (String × JVal)) (x y : Int),
        jget o "x" = some (.jint x) → jget o "y" = some (.jint y) →
        jget o "button" = none → jget o "clicks" = none →
        validateParams .click o
          = .ok [("x", .jint x), ("y", .jint y), ("button", .jstr "left"),
                 ("clicks", .jint 1)])
      ∧ (∀ (x y clicks : Int) (button : String),
          validateParams .click
              [("x", .jint x), ("y", .jint y), ("button", .jstr button),
               ("clicks", .jint clicks)]
            = .ok [("x", .jint x), ("y", .jint y), ("button", .jstr button),
                   ("clicks", .jint clicks)]) := by
  constructor
  · intro o x y h1 h2 h3 h4
    simp only [validateParams, reqField, optField, h1, h2, h3, h4, asInt, asStr]
    rfl
  · intro x y clicks button
    rfl

/-- C10, witness: a click object providing only coordinates validates to
the defaulted record. -/
theorem C10_click_defaults_witness :
    validateParams .click [("x", .jint 3), ("y", .jint 4)]
      = .ok [("x", .jint 3), ("y", .jint 4), ("button", .jstr "left"),
             ("clicks", .jint 1)] :=
  C10_click_defaults.1 [("x", .jint 3), ("y", .jint 4)] 3 4 rfl rfl rfl rfl

/-- C5: the control loop's execution call (`dispatchAction`, mirroring
orchestrator lines 124–129) passes no image size and an empty model name,
so under the `auto` or `absolute` coordinate-format configuration every
spatial action — click, move, and scroll with both coordinates — is
injected at exactly the raw model-reported coordinates clamped to
`[0, dimension − 1]`: `auto` resolves to `absolute` (the empty model name
contains no `qwen3`) and `absolute` without an image size falls back to the
raw coordinates, so no rescaling from image space or the 0–1000 grid is
applied. -/
theorem C5_loop_raw_coords :
    ∀ (cfg : GuiConfig) (parsed : AgentResponse),
      cfg.coordFormat = "auto" ∨ cfg.coordFormat = "absolute" →
      ((∀ (x y c : Int) (b : String),
          parsed.action.type = ActionType.click →
          jget parsed.action.params "x" = some (.jint x) →
          jget parsed.action.params "y" = some (.jint y) →
          jget parsed.action.params "button" = some (.jstr b) →
          jget parsed.action.params "clicks" = some (.jint c) →
          (dispatchAction cfg parsed).ops
            = [GuiOp.click (clampI x cfg.screen.1) (clampI y cfg.screen.2) b c])
        ∧ (∀ x y : Int,
            parsed.action.type = ActionType.move →
            jget parsed.action.params "x" = some (.jint x) →
            jget parsed.action.params "y" = some (.jint y) →
            (dispatchAction cfg parsed).ops
              = [GuiOp.move (clampI x cfg.screen.1) (clampI y cfg.screen.2)])
        ∧ (∀ a x y : Int,
            parsed.action.type = ActionType.scroll →
            jget parsed.action.params "amount" = some (.jint a) →
            jget parsed.action.params "x" = some (.jint x) →
            jget parsed.action.params "y" = some (.jint y) →
            (dispatchAction cfg parsed).ops
              = [GuiOp.scroll a (some (clampI x cfg.screen.1))
                   (some (clampI y cfg.screen.2))])) := by
  intro cfg parsed hcf
  refine ⟨fun x y c b ht hx hy hb hc => ?_, fun x y ht hx hy => ?_,
          fun a x y ht ha hx hy => ?_⟩
  · simp only [dispatchAction, ht, kindStr]
    simp [executeAction, jget, coordD, hx, hy, hb, hc,
          convert_fallback_raw _ _ _ _ _ hcf]
  · simp only [dispatchAction, ht, kindStr]
    simp [executeAction, jget, coordD, hx, hy,
          convert_fallback_raw _ _ _ _ _ hcf]
    rw [if_neg (by decide : ¬("move" = "click"))]
  · simp only [dispatchAction, ht, kindStr]
    simp [executeAction, jget, coordD, coordOpt, hx, hy, ha,
          convert_fallback_raw _ _ _ _ _ hcf]
    rw [if_neg (by decide : ¬("scroll" = "click")),
        if_neg (by decide : ¬("scroll" = "move")),
        if_neg (by decide : ¬("scroll" = "type")),
        if_neg (by decide : ¬("scroll" = "hotkey"))]

/-- C5, witness: a parsed click turn at raw (3000, −5) on a 1920×1080
screen under `auto` format is injected at the clamped raw coordinates
(1919, 0). -/
theorem C5_loop_raw_coords_witness :
    (dispatchAction ⟨"auto", (1920, 1080), none⟩
        ⟨"t", ⟨ActionType.click,
               [("x", .jint 3000), ("y", .jint (-5)), ("button", .jstr "left"),
                ("clicks", .jint 1)]⟩, "in_progress"⟩).ops
      = [GuiOp.click 1919 0 "left" 1] :=
  (C5_loop_raw_coords ⟨"auto", (1920, 1080), none⟩
      ⟨"t", ⟨ActionType.click,
             [("x", .jint 3000), ("y", .jint (-5)), ("button", .jstr "left"),
              ("clicks", .jint 1)]⟩, "in_progress"⟩
      (Or.inl rfl)).1 3000 (-5) 1 "left" rfl rfl rfl rfl rfl

/-- The turn the loop validates on step `i`: the parse of the model's raw
text for that step. -/
def turnAt (env : LoopEnv) (i : Nat) : AgentResponse :=
  parse env.dec (env.llmResponse i)

/-- Step `i` triggers neither termination check of the loop. -/
def nonTerminalAt (env : LoopEnv) (i : Nat) : Prop :=
  (turnAt env i).status ≠ "completed" ∧ (turnAt env i).status ≠ "failed"
    ∧ (turnAt env i).action.type ≠ ActionType.done

/-- If every remaining step is non-terminal, the loop consumes all its fuel
and falls through to the max-steps failure, having appended one step per
iteration. -/
theorem runLoop_nonterminal (env : LoopEnv) (ms : Nat) :
    ∀ (fuel stepNum : Nat) (acc : List Step),
      (∀ i, stepNum ≤ i → i < stepNum + fuel → nonTerminalAt env i) →
      (runLoop env ms fuel stepNum acc).success = false
        ∧ (runLoop env ms fuel stepNum acc).message
            = "Max steps (" ++ toString ms ++ ") reached without completion"
        ∧ (runLoop env ms fuel stepNum acc).steps.length = acc.length + fuel := by
  intro fuel
  induction fuel with
  | zero => exact fun stepNum acc _ => ⟨rfl, rfl, rfl⟩
  | succ m ih =>
    intro stepNum acc h
    obtain ⟨g1, g2, g3⟩ := h stepNum (le_refl _) (by omega)
    rw [turnAt] at g1 g2 g3
    simp only [runLoop]
    rw [if_neg (fun hc => hc.elim g1 g3), if_neg g2]
    refine ⟨?_, ?_, ?_⟩
    · exact (ih (stepNum + 1) _
        (fun i hi1 hi2 => h i (by omega) (by omega))).1
    · exact (ih (stepNum + 1) _
        (fun i hi1 hi2 => h i (by omega) (by omega))).2.1
    · rw [(ih (stepNum + 1) _
        (fun i hi1 hi2 => h i (by omega) (by omega))).2.2]
      simp only [List.length_append, List.length_singleton]
      omega

/-- C7: a model that on every step returns a turn with status
`in_progress` and a non-`done` action drives the loop through exactly
`max_steps` iterations; the run fails with the max-steps message and
records exactly `max_steps` steps. -/
theorem C7_max_steps (env : LoopEnv) (maxSteps : Nat)
    (h : ∀ i, 1 ≤ i → i ≤ maxSteps →
      (turnAt env i).status = "in_progress"
        ∧ (turnAt env i).action.type ≠ ActionType.done) :
    (runTask env maxSteps).success = false
      ∧ (runTask env maxSteps).message
          = "Max steps (" ++ toString maxSteps ++ ") reached without completion"
      ∧ (runTask env maxSteps).steps.length = maxSteps := by
  obtain ⟨c1, c2, c3⟩ := runLoop_nonterminal env maxSteps maxSteps 1 []
    (fun i hi1 hi2 => by
      obtain ⟨hs, hd⟩ := h i hi1 (by omega)
      exact ⟨by rw [hs]; decide, by rw [hs]; decide, hd⟩)
  exact ⟨c1, c2, by rw [runTask, c3]; simp only [List.length_nil]; omega⟩

/-- A scripted model that always answers a well-formed `in_progress` click
turn. -/
def inProgEnv : LoopEnv :=
  ⟨fun _ => .ok (.jobj [("thought", .jstr "t"),
      ("action", .jobj [("type", .jstr "click"),
        ("params", .jobj [("x", .jint 1), ("y", .jint 2)])]),
      ("status", .jstr "in_progress")]),
   fun _ => "\x7bx\x7d".data, fun _ => "", ⟨"auto", (1920, 1080), none⟩⟩

/-- The scripted model's turn does not depend on the step index. -/
theorem inProgEnv_turn (i : Nat) : turnAt inProgEnv i = turnAt inProgEnv 0 := rfl

/-- C7, witness: the always-`in_progress` model exhausts a 2-step budget
with a failed run of exactly 2 recorded steps. -/
theorem C7_max_steps_witness :
    (runTask inProgEnv 2).success = false
      ∧ (runTask inProgEnv 2).message = "Max steps (2) reached without completion"
      ∧ (runTask inProgEnv 2).steps.length = 2 :=
  C7_max_steps inProgEnv 2
    (fun i _ _ => ⟨by rw [inProgEnv_turn]; decide, by rw [inProgEnv_turn]; decide⟩)

/-- If the first terminal step `n` carries status `failed` with a non-`done`
action (and status not `completed`, which `failed` excludes), the loop
stops there as a failure whose message is built from that turn's thought,
with `n − stepNum + 1` new steps recorded. -/
theorem runLoop_fail_at (env : LoopEnv) (ms : Nat) :
    ∀ (fuel stepNum : Nat) (acc : List Step) (n : Nat),
      stepNum ≤ n → n < stepNum + fuel →
      (∀ i, stepNum ≤ i → i < n → nonTerminalAt env i) →
      (turnAt env n).status = "failed" →
      (turnAt env n).action.type ≠ ActionType.done →
      (runLoop env ms fuel stepNum acc).success = false
        ∧ (runLoop env ms fuel stepNum acc).message
            = "Task failed: " ++ (turnAt env n).thought
        ∧ (runLoop env ms fuel stepNum acc).steps.length
            = acc.length + (n + 1 - stepNum) := by
  intro fuel
  induction fuel with
  | zero =>
    intro stepNum acc n h1 h2 _ _ _
    exact absurd h2 (by omega)
  | succ m ih =>
    intro stepNum acc n h1 h2 hpre hfail hnd
    by_cases hn : stepNum = n
    · subst hn
      rw [turnAt] at hfail hnd
      rw [turnAt]
      simp only [runLoop]
      rw [if_neg (fun hc =>
            hc.elim (fun h => absurd (hfail.symm.trans h) (by decide)) hnd),
          if_pos hfail]
      refine ⟨rfl, rfl, ?_⟩
      simp only [List.length_append, List.length_singleton]
      omega
    · have hlt : stepNum < n := Nat.lt_of_le_of_ne h1 hn
      obtain ⟨g1, g2, g3⟩ := hpre stepNum (le_refl _) hlt
      rw [turnAt] at g1 g2 g3
      simp only [runLoop]
      rw [if_neg (fun hc => hc.elim g1 g3), if_neg g2]
      refine ⟨?_, ?_, ?_⟩
      · exact (ih (stepNum + 1) _ n (by omega) (by omega)
          (fun i hi1 hi2 => hpre i (by omega) hi2) hfail hnd).1
      · exact (ih (stepNum + 1) _ n (by omega) (by omega)
          (fun i hi1 hi2 => hpre i (by omega) hi2) hfail hnd).2.1
      · rw [(ih (stepNum + 1) _ n (by omega) (by omega)
          (fun i hi1 hi2 => hpre i (by omega) hi2) hfail hnd).2.2]
        simp only [List.length_append, List.length_singleton]
        omega

/-- C2, counterexample.  A synthetic parse-failure turn has action `done`
and status `failed`; on it the loop's done/completed check fires first
(orchestrator line 158, ahead of the `failed` check at line 173), so the
run ends with `success = true` and the action's message — not, as the
claim states, as a failure with a thought-derived message. -/
theorem C2_counterexample :
    (turnAt parseFailEnv 1).status = "failed"
      ∧ (turnAt parseFailEnv 1).action.type = ActionType.done
      ∧ (runTask parseFailEnv 5).success = true
      ∧ (runTask parseFailEnv 5).success ≠ false
      ∧ (runTask parseFailEnv 5).message = "Parse error: No JSON found"
      ∧ (runTask parseFailEnv 5).steps.length = 1 :=
  ⟨rfl, rfl, rfl, fun h => Bool.noConfusion h, rfl, rfl⟩

/-- C2, amended.  A validated turn with status `failed` terminates the run
at that step as a failure with the message built from the turn's thought,
and no further step is recorded — provided its action kind is not `done`
(and its status is not `completed`, which `failed` already excludes).  When
the action kind is `done` — as for every synthetic parse-failure turn — the
done/completed check fires first and the run instead ends successfully
with the action's message (see the counterexample). -/
theorem C2_failed_status (env : LoopEnv) (maxSteps n : Nat)
    (h1 : 1 ≤ n) (h2 : n ≤ maxSteps)
    (hpre : ∀ i, 1 ≤ i → i < n → nonTerminalAt env i)
    (hfail : (turnAt env n).status = "failed")
    (hnd : (turnAt env n).action.type ≠ ActionType.done) :
    (runTask env maxSteps).success = false
      ∧ (runTask env maxSteps).message = "Task failed: " ++ (turnAt env n).thought
      ∧ (runTask env maxSteps).steps.length = n := by
  obtain ⟨c1, c2, c3⟩ := runLoop_fail_at env maxSteps maxSteps 1 [] n h1
    (by omega) hpre hfail hnd
  exact ⟨c1, c2, by rw [runTask, c3]; simp only [List.length_nil]; omega⟩

/-- A scripted model that on every step declares status `failed` with a
(non-`done`) `wait` action. -/
def failedWaitEnv : LoopEnv :=
  ⟨fun _ => .ok (.jobj [("thought", .jstr "t1"),
      ("action", .jobj [("type", .jstr "wait"), ("params", .jobj [])]),
      ("status", .jstr "failed")]),
   fun _ => "\x7bx\x7d".data, fun _ => "", ⟨"auto", (1920, 1080), none⟩⟩

/-- C2, witness for the amended theorem: the failed-status `wait` model
stops the run at step 1 as a failure built from its thought. -/
theorem C2_failed_status_witness :
    (runTask failedWaitEnv 3).success = false
      ∧ (runTask failedWaitEnv 3).message
          = "Task failed: " ++ (turnAt failedWaitEnv 1).thought
      ∧ (runTask failedWaitEnv 3).steps.length = 1 :=
  C2_failed_status failedWaitEnv 3 1 (le_refl 1) (by decide)
    (fun i hi1 hi2 => absurd (Nat.lt_of_le_of_lt hi1 hi2) (Nat.lt_irrefl 1))
    (by decide) (by decide)

/-- The candidate the parser actually decodes: the extraction result,
with the Python falsy test folding an empty candidate into "no candidate"
(lines 135–137). -/
def candidateOf (cs : List Char) : Option (List Char) :=
  match extract_json cs with
  | none => none
  | some js => if js.isEmpty then none else some js

/-- Full outcome of a `json.loads(json_str)` call (line 148): a decoded
value, a `json.JSONDecodeError` (the only exception the surrounding
`except` clause at line 149 catches), or any other raised exception —
notably `RecursionError`, which `json.loads` raises when the candidate's
nesting reaches the interpreter's default recursion limit of 1000. -/
inductive DecodeOutcome where
  | ok (v : JVal)
  | decodeErr (e : String)
  | raise (e : String)

/-- Embedding of `ActionParser.parse` over the full decoder outcome: a
decoder `raise` is caught by nothing — the `except json.JSONDecodeError`
at line 149 does not match it and the `try` at line 160 only begins after
the decode — so it propagates out of `parse` as `Except.error`.  On every
returning path this agrees with `parse` (see `parseRun_ok_decoder`). -/
def parseRun (dec : List Char → DecodeOutcome) (response : List Char) :
    Except String AgentResponse :=
  match extract_json response with
  | none => .ok (noJsonTurn response)
  | some js =>
    if js.isEmpty then .ok (noJsonTurn response)
    else
      match dec js with
      | .raise e => .error e
      | .decodeErr e =>
        .ok ⟨"Failed to parse JSON: " ++ e, doneAct ("JSON parse error: " ++ e),
             "failed"⟩
      | .ok v => .ok (validateData v)

/-- `parseRun` factored through `candidateOf`. -/
theorem parseRun_eq_candidate (dec : List Char → DecodeOutcome)
    (cs : List Char) :
    parseRun dec cs =
      match candidateOf cs with
      | none => .ok (noJsonTurn cs)
      | some js =>
        match dec js with
        | .raise e => .error e
        | .decodeErr e =>
          .ok ⟨"Failed to parse JSON: " ++ e, doneAct ("JSON parse error: " ++ e),
               "failed"⟩
        | .ok v => .ok (validateData v) := by
  unfold parseRun candidateOf
  rcases h : extract_json cs with _ | js
  · rfl
  · by_cases he : js.isEmpty <;> simp [he]

/-- On decoders that never raise — executions staying within the recursion
limit — `parseRun` returns exactly the turn computed by the loop-facing
`parse`. -/
theorem parseRun_ok_decoder (d : List Char → Except String JVal)
    (cs : List Char) :
    parseRun (fun js =>
        match d js with
        | .ok v => DecodeOutcome.ok v
        | .error e => DecodeOutcome.decodeErr e) cs
      = .ok (parse d cs) := by
  unfold parseRun parse
  rcases h : extract_json cs with _ | js
  · rfl
  · by_cases he : js.isEmpty
    · simp [he]
    · rcases hd : d js with e | v <;> simp [he, hd]

/-- ExtractionFailure: no candidate JSON text was found (or it was empty). -/
def extractionFailed (cs : List Char) : Prop :=
  candidateOf cs = none

/-- DecodeFailure: a candidate was found and the JSON decoder rejects it
with a `json.JSONDecodeError`. -/
def decodeFailed (dec : List Char → DecodeOutcome) (cs : List Char) : Prop :=
  ∃ js e, candidateOf cs = some js ∧ dec js = .decodeErr e

/-- SchemaFailure: the decoded value is not an object. -/
def schemaFailed (dec : List Char → DecodeOutcome) (cs : List Char) : Prop :=
  ∃ js v, candidateOf cs = some js ∧ dec js = .ok v ∧ ∀ o, v ≠ JVal.jobj o

/-- Invalid action shape: the `action` field is present but not an object. -/
def actionShapeFailed (dec : List Char → DecodeOutcome) (cs : List Char) : Prop :=
  ∃ js o v, candidateOf cs = some js ∧ dec js = .ok (.jobj o)
    ∧ jget o "action" = some v ∧ ∀ ao, v ≠ JVal.jobj ao

/-- UnknownActionKind: the resolved `type` string is not an enumeration
member. -/
def unknownKindFailed (dec : List Char → DecodeOutcome) (cs : List Char) : Prop :=
  ∃ js o ao ts, candidateOf cs = some js ∧ dec js = .ok (.jobj o)
    ∧ (jget o "action").getD (.jobj []) = .jobj ao
    ∧ (jget ao "type").getD (.jstr "done") = .jstr ts
    ∧ parseKind ts = none

/-- ParamValidationFailure: the kind resolves but the parameters are
rejected by its validator. -/
def paramValidationFailed (dec : List Char → DecodeOutcome) (cs : List Char) : Prop :=
  ∃ js o ao ts k po em, candidateOf cs = some js ∧ dec js = .ok (.jobj o)
    ∧ (jget o "action").getD (.jobj []) = .jobj ao
    ∧ (jget ao "type").getD (.jstr "done") = .jstr ts
    ∧ parseKind ts = some k
    ∧ (jget ao "params").getD (.jobj []) = .jobj po
    ∧ validateParams k po = .error em

/-- A non-object top-level value produces the terminal failed turn. -/
theorem validateData_not_obj {v : JVal} (h : ∀ o, v ≠ JVal.jobj o) :
    (validateData v).action.type = ActionType.done
      ∧ (validateData v).status = "failed" := by
  cases v with
  | jobj o => exact absurd rfl (h o)
  | jnull => exact ⟨rfl, rfl⟩
  | jbool b => exact ⟨rfl, rfl⟩
  | jint n => exact ⟨rfl, rfl⟩
  | jnum q => exact ⟨rfl, rfl⟩
  | jstr s => exact ⟨rfl, rfl⟩
  | jarr xs => exact ⟨rfl, rfl⟩

/-- A non-object `action` value produces the terminal failed turn. -/
theorem validateAction_not_obj {tv sv av : JVal} (h : ∀ ao, av ≠ JVal.jobj ao) :
    (validateAction tv sv av).action.type = ActionType.done
      ∧ (validateAction tv sv av).status = "failed" := by
  cases av with
  | jobj ao => exact absurd rfl (h ao)
  | jnull => exact mkChecked_done _ _
  | jbool b => exact mkChecked_done _ _
  | jint n => exact mkChecked_done _ _
  | jnum q => exact mkChecked_done _ _
  | jstr s => exact mkChecked_done _ _
  | jarr xs => exact mkChecked_done _ _

/-- An unknown action-kind string produces the terminal failed turn. -/
theorem validateActionObj_unknown {tv sv : JVal} {ao : List (String × JVal)}
    {ts : String} (h1 : (jget ao "type").getD (.jstr "done") = .jstr ts)
    (h2 : parseKind ts = none) :
    (validateActionObj tv sv ao).action.type = ActionType.done
      ∧ (validateActionObj tv sv ao).status = "failed" := by
  simp only [validateActionObj, h1, h2]
  exact mkChecked_done _ _

/-- A parameter-validation error produces the terminal failed turn. -/
theorem validateActionObj_params_err {tv sv : JVal} {ao po : List (String × JVal)}
    {ts : String} {k : ActionType} {em : String}
    (h1 : (jget ao "type").getD (.jstr "done") = .jstr ts)
    (h2 : parseKind ts = some k)
    (h3 : (jget ao "params").getD (.jobj []) = .jobj po)
    (h4 : validateParams k po = .error em) :
    (validateActionObj tv sv ao).action.type = ActionType.done
      ∧ (validateActionObj tv sv ao).status = "failed" := by
  simp only [validateActionObj, h1, h2, validateKindParams, h3, h4]
  exact mkChecked_done _ _

/-- C6, amended.  First conjunct: the only way `parse` can fail to return
an `AgentTurn` is by propagating an exception other than
`json.JSONDecodeError` raised by `json.loads` on the extracted candidate —
as `RecursionError` is on nesting at the default recursion limit (see the
counterexample); no other stage raises outward.  Second conjunct: on every
one of the five parsing-stage failures — extraction, decode, top-level
schema, action shape, unknown kind, parameter validation — `parse` returns
the synthetic terminal turn: action `done`, status `failed`. -/
theorem C6_parse_fail_soft :
    (∀ (dec : List Char → DecodeOutcome) (cs : List Char) (e : String),
        parseRun dec cs = .error e →
        ∃ js, candidateOf cs = some js ∧ dec js = .raise e)
      ∧ (∀ (dec : List Char → DecodeOutcome) (cs : List Char),
          extractionFailed cs ∨ decodeFailed dec cs ∨ schemaFailed dec cs
              ∨ actionShapeFailed dec cs ∨ unknownKindFailed dec cs
              ∨ paramValidationFailed dec cs →
          ∃ turn, parseRun dec cs = .ok turn
            ∧ turn.action.type = ActionType.done ∧ turn.status = "failed") := by
  constructor
  · intro dec cs e h
    rw [parseRun_eq_candidate] at h
    rcases hc : candidateOf cs with _ | js
    · rw [hc] at h
      dsimp only at h
      exact Except.noConfusion h
    · rw [hc] at h
      dsimp only at h
      rcases hd : dec js with v | e' | e' <;> rw [hd] at h <;> dsimp only at h
      · exact Except.noConfusion h
      · exact Except.noConfusion h
      · injection h with he
        exact ⟨js, rfl, he ▸ hd⟩
  · intro dec cs h
    rcases h with h | h | h | h | h | h
    · rw [extractionFailed] at h
      exact ⟨noJsonTurn cs, by simp [parseRun_eq_candidate, h], rfl, rfl⟩
    · obtain ⟨js, e, h1, h2⟩ := h
      exact ⟨⟨"Failed to parse JSON: " ++ e, doneAct ("JSON parse error: " ++ e),
              "failed"⟩,
             by simp [parseRun_eq_candidate, h1, h2], rfl, rfl⟩
    · obtain ⟨js, v, h1, h2, h3⟩ := h
      exact ⟨validateData v, by simp [parseRun_eq_candidate, h1, h2],
             (validateData_not_obj h3).1, (validateData_not_obj h3).2⟩
    · obtain ⟨js, o, v, h1, h2, h3, h4⟩ := h
      have hp : (validateData (.jobj o)).action.type = ActionType.done
          ∧ (validateData (.jobj o)).status = "failed" := by
        simp only [validateData, h3, Option.getD]
        exact validateAction_not_obj h4
      exact ⟨validateData (.jobj o), by simp [parseRun_eq_candidate, h1, h2],
             hp.1, hp.2⟩
    · obtain ⟨js, o, ao, ts, h1, h2, h3, h4, h5⟩ := h
      have hp : (validateData (.jobj o)).action.type = ActionType.done
          ∧ (validateData (.jobj o)).status = "failed" := by
        simp only [validateData, h3, validateAction]
        exact validateActionObj_unknown h4 h5
      exact ⟨validateData (.jobj o), by simp [parseRun_eq_candidate, h1, h2],
             hp.1, hp.2⟩
    · obtain ⟨js, o, ao, ts, k, po, em, h1, h2, h3, h4, h5, h6, h7⟩ := h
      have hp : (validateData (.jobj o)).action.type = ActionType.done
          ∧ (validateData (.jobj o)).status = "failed" := by
        simp only [validateData, h3, validateAction]
        exact validateActionObj_params_err h4 h5 h6 h7
      exact ⟨validateData (.jobj o), by simp [parseRun_eq_candidate, h1, h2],
             hp.1, hp.2⟩

/-- C6, witness for the amended theorem: braceless text is an extraction
failure and parses to the terminal failed turn. -/
theorem C6_parse_fail_soft_witness :
    ∃ turn, parseRun (fun _ => DecodeOutcome.decodeErr "e") "hello".data
        = .ok turn
      ∧ turn.action.type = ActionType.done ∧ turn.status = "failed" :=
  C6_parse_fail_soft.2 (fun _ => DecodeOutcome.decodeErr "e") "hello".data
    (Or.inl (by show candidateOf "hello".data = none; decide))

/-- The fenced-block regex cannot match at a position that does not start
with a backtick. -/
theorem matchCodeBlockAt_none_of_head {c : Char} {cs : List Char}
    (hc : c ≠ '`') : matchCodeBlockAt (c :: cs) = none := by
  unfold matchCodeBlockAt
  have hch : chopLit "```".data (c :: cs) = none := by
    unfold chopLit
    rw [if_neg]
    intro hpre
    have hpre' : (('`' == c) && List.isPrefixOf ['`', '`'] cs) = true := hpre
    rw [Bool.and_eq_true] at hpre'
    exact hc (beq_iff_eq.mp hpre'.1).symm
  rw [hch]

/-- Leftmost search: a backtick-free prefix contributes no match, so the
search returns the match found at the junction. -/
theorem findCodeBlock_prepend :
    ∀ (a r w : List Char), '`' ∉ a → matchCodeBlockAt r = some w →
      findCodeBlock (a ++ r) = some w := by
  intro a
  induction a with
  | nil =>
    intro r w _ hm
    rw [List.nil_append]
    cases r with
    | nil =>
      exact Option.noConfusion
        ((rfl : matchCodeBlockAt ([] : List Char) = none).symm.trans hm)
    | cons c t => simp only [findCodeBlock, hm]
  | cons c t ih =>
    intro r w ha hm
    have hc : c ≠ '`' := fun hceq => ha (hceq ▸ List.mem_cons_self _ _)
    have h1 : matchCodeBlockAt (c :: (t ++ r)) = none :=
      matchCodeBlockAt_none_of_head hc
    simp only [List.cons_append, findCodeBlock, List.append_eq, h1]
    exact ih r w (fun hx => ha (List.mem_cons_of_mem _ hx)) hm

/-- C8, counterexample.  The claim promises the block interior verbatim for
any input text, but the preprocessing runs before the fence matcher and
deletes `/think` even inside the block: the fenced block's interior here is
`\x7b"a": "/think"\x7d`, yet extraction returns `\x7b"a": ""\x7d`. -/
theorem C8_counterexample :
    extract_json "```json\n\x7b\"a\": \"/think\"\x7d\n```".data
        ≠ some "\x7b\"a\": \"/think\"\x7d".data
      ∧ extract_json "```json\n\x7b\"a\": \"/think\"\x7d\n```".data
          = some "\x7b\"a\": \"\"\x7d".data :=
  ⟨by decide, by decide⟩

/-- C8, amended.  When the preprocessing pipeline leaves the text unchanged
(no think-regions, markers, strippable ends or step tag), no backtick
precedes the fenced block, and the fence matcher closes exactly at the
block's final brace (no earlier `\x7d` inside the block is followed by
optional whitespace and a fence), extraction returns exactly the block's
interior, verbatim. -/
theorem C8_fenced_block (a w b : List Char)
    (ha : '`' ∉ a)
    (hp : preprocessText (a ++ "```json\n".data ++ w ++ "\n```".data ++ b)
            = a ++ "```json\n".data ++ w ++ "\n```".data ++ b)
    (hm : matchCodeBlockAt ("```json\n".data ++ w ++ "\n```".data ++ b) = some w) :
    extract_json (a ++ "```json\n".data ++ w ++ "\n```".data ++ b) = some w := by
  have hf := findCodeBlock_prepend a ("```json\n".data ++ w ++ "\n```".data ++ b)
    w ha hm
  have hf' : findCodeBlock (a ++ "```json\n".data ++ w ++ "\n```".data ++ b)
      = some w := by
    rw [show a ++ "```json\n".data ++ w ++ "\n```".data ++ b
          = a ++ ("```json\n".data ++ w ++ "\n```".data ++ b) by
        simp [List.append_assoc]]
    exact hf
  simp only [extract_json, hp, hf']

/-- C8, witness: a clean text with prose around a fenced block extracts the
block interior verbatim. -/
theorem C8_fenced_block_witness :
    extract_json ("hi ".data ++ "```json\n".data ++ "\x7b\"a\":1\x7d".data
        ++ "\n```".data ++ " tail".data)
      = some "\x7b\"a\":1\x7d".data :=
  C8_fenced_block "hi ".data "\x7b\"a\":1\x7d".data " tail".data
    (by decide) (by decide) (by decide)

/-- Opening segment of the deeply nested probe: `'\x7b"a":'` repeated. -/
def nestOpen : Nat → List Char
  | 0 => []
  | k + 1 => '\x7b' :: '"' :: 'a' :: '"' :: ':' :: nestOpen k

/-- Closing segment of the deeply nested probe: `'\x7d'` repeated. -/
def nestClose : Nat → List Char
  | 0 => []
  | k + 1 => '\x7d' :: nestClose k

/-- The deeply nested probe `'\x7b"a":' * n + '\x7b\x7d' + '\x7d' * n`: a
balanced JSON object of nesting depth `n + 1`. -/
def deepNested (n : Nat) : List Char :=
  nestOpen n ++ ('\x7b' :: '\x7d' :: nestClose n)

/-- Characters of the opening segment. -/
theorem mem_nestOpen {a : Char} :
    ∀ {k : Nat}, a ∈ nestOpen k → a = '\x7b' ∨ a = '"' ∨ a = 'a' ∨ a = ':' := by
  intro k
  induction k with
  | zero => intro h; exact absurd h (List.not_mem_nil a)
  | succ m ih =>
    intro h
    simp only [nestOpen, List.mem_cons] at h
    rcases h with rfl | rfl | rfl | rfl | rfl | h
    · exact Or.inl rfl
    · exact Or.inr (Or.inl rfl)
    · exact Or.inr (Or.inr (Or.inl rfl))
    · exact Or.inr (Or.inl rfl)
    · exact Or.inr (Or.inr (Or.inr rfl))
    · exact ih h

/-- Characters of the closing segment. -/
theorem mem_nestClose {a : Char} :
    ∀ {k : Nat}, a ∈ nestClose k → a = '\x7d' := by
  intro k
  induction k with
  | zero => intro h; exact absurd h (List.not_mem_nil a)
  | succ m ih =>
    intro h
    simp only [nestClose, List.mem_cons] at h
    rcases h with rfl | h
    · rfl
    · exact ih h

/-- The probe uses only five distinct characters. -/
theorem mem_deepNested {a : Char} {n : Nat} (h : a ∈ deepNested n) :
    a = '\x7b' ∨ a = '"' ∨ a = 'a' ∨ a = ':' ∨ a = '\x7d' := by
  unfold deepNested at h
  rcases List.mem_append.mp h with h | h
  · rcases mem_nestOpen h with h | h | h | h
    · exact Or.inl h
    · exact Or.inr (Or.inl h)
    · exact Or.inr (Or.inr (Or.inl h))
    · exact Or.inr (Or.inr (Or.inr (Or.inl h)))
  · rcases List.mem_cons.mp h with rfl | h
    · exact Or.inl rfl
    · rcases List.mem_cons.mp h with rfl | h
      · exact Or.inr (Or.inr (Or.inr (Or.inr rfl)))
      · exact Or.inr (Or.inr (Or.inr (Or.inr (mem_nestClose h))))

/-- Any character other than the probe's five is absent from it. -/
theorem deepNested_not_mem {c : Char} {n : Nat} (h1 : c ≠ '\x7b')
    (h2 : c ≠ '"') (h3 : c ≠ 'a') (h4 : c ≠ ':') (h5 : c ≠ '\x7d') :
    c ∉ deepNested n := by
  intro h
  rcases mem_deepNested h with h | h | h | h | h
  exacts [h1 h, h2 h, h3 h, h4 h, h5 h]

/-- A literal whose first character is absent from the text cannot be
chopped off its front. -/
theorem chopLit_none {d : Char} {nd : List Char} :
    ∀ {cs : List Char}, d ∉ cs → chopLit (d :: nd) cs = none := by
  intro cs h
  cases cs with
  | nil => rfl
  | cons c t =>
    have hc : ¬(c = d) := fun he => h (he ▸ List.mem_cons_self c t)
    unfold chopLit
    rw [if_neg]
    intro hp
    have hp' : ((d == c) && List.isPrefixOf nd t) = true := hp
    rw [Bool.and_eq_true, beq_iff_eq] at hp'
    exact hc hp'.1.symm

/-- A needle whose first character is absent from the text is never found. -/
theorem splitOnFirst_none {d : Char} {nd : List Char} :
    ∀ {cs : List Char}, d ∉ cs → splitOnFirst (d :: nd) cs = none := by
  intro cs
  induction cs with
  | nil => intro _; rfl
  | cons c t ih =>
    intro h
    have ht : d ∉ t := fun hm => h (List.mem_cons_of_mem c hm)
    simp only [splitOnFirst, chopLit_none h, ih ht, Option.map_none']

/-- Think-region removal is the identity on text without an opening angle
bracket. -/
theorem removeThinkAux_id :
    ∀ (fuel : Nat) {cs : List Char}, '<' ∉ cs → removeThinkAux fuel cs = cs := by
  intro fuel
  induction fuel with
  | zero => intro cs _; rfl
  | succ f _ =>
    intro cs h
    have hs : splitOnFirst "<think>".data cs = none :=
      @splitOnFirst_none '<' "think>".data cs h
    simp only [removeThinkAux, hs]

theorem removeThink_id {cs : List Char} (h : '<' ∉ cs) : removeThink cs = cs :=
  removeThinkAux_id cs.length h

/-- Marker removal is the identity on text without a slash. -/
theorem removeMarkersAux_id :
    ∀ (fuel : Nat) {cs : List Char}, '/' ∉ cs → removeMarkersAux fuel cs = cs := by
  intro fuel
  induction fuel with
  | zero => intro cs _; rfl
  | succ f ih =>
    intro cs h
    have h1 : chopLit "/no_think".data cs = none :=
      @chopLit_none '/' "no_think".data cs h
    have h2 : chopLit "/think".data cs = none :=
      @chopLit_none '/' "think".data cs h
    cases cs with
    | nil => simp only [removeMarkersAux, h1, h2]
    | cons c t =>
      have ht : '/' ∉ t := fun hm => h (List.mem_cons_of_mem c hm)
      simp only [removeMarkersAux, h1, h2]
      rw [ih ht]

theorem removeMarkers_id {cs : List Char} (h : '/' ∉ cs) :
    removeMarkers cs = cs :=
  removeMarkersAux_id cs.length h

/-- `dropWhile` is the identity when no element satisfies the test. -/
theorem dropWhile_id_of_all {p : Char → Bool} {l : List Char}
    (h : ∀ a ∈ l, p a = false) : l.dropWhile p = l := by
  cases l with
  | nil => rfl
  | cons c t =>
    have hc := h c (List.mem_cons_self c t)
    simp [List.dropWhile_cons, hc]

/-- Stripping is the identity on text with no Python whitespace. -/
theorem pyStrip_id {cs : List Char} (h : ∀ a ∈ cs, isPySpace a = false) :
    pyStrip cs = cs := by
  unfold pyStrip
  rw [dropWhile_id_of_all h,
      dropWhile_id_of_all (fun a ha => h a (List.mem_reverse.mp ha)),
      List.reverse_reverse]

/-- A case-insensitive literal fails at a mismatching first character. -/
theorem chopLitCI_none_head {d c : Char} {nd t : List Char}
    (h : ¬(c.toLower = d)) : chopLitCI (d :: nd) (c :: t) = none := by
  unfold chopLitCI
  rw [if_neg]
  intro he
  have he' : c.toLower :: (t.take nd.length).map Char.toLower = d :: nd := he
  exact h (List.cons.inj he').1

/-- Neither step-word alternative matches when the head is not `步` and
does not lower-case to `s`. -/
theorem stepWordChop_none {c : Char} {t : List Char}
    (h1 : '步' ∉ c :: t) (h2 : ¬(c.toLower = 's')) :
    stepWordChop (c :: t) = none := by
  have ha : chopLit "步骤".data (c :: t) = none :=
    @chopLit_none '步' "骤".data (c :: t) h1
  have hb : chopLitCI "step".data (c :: t) = none :=
    @chopLitCI_none_head 's' c "tep".data t h2
  simp only [stepWordChop, ha, hb]

/-- Step-tag removal is the identity when the step word cannot match. -/
theorem dropStepTag_id {c : Char} {t : List Char}
    (h1 : '步' ∉ c :: t) (h2 : ¬(c.toLower = 's')) :
    dropStepTag (c :: t) = c :: t := by
  simp only [dropStepTag, stepWordChop_none h1 h2]

/-- The probe always starts with an opening brace. -/
theorem deepNested_cons (n : Nat) : ∃ t, deepNested n = '\x7b' :: t := by
  cases n with
  | zero => exact ⟨['\x7d'], rfl⟩
  | succ m =>
    exact ⟨'"' :: 'a' :: '"' :: ':' ::
      (nestOpen m ++ ('\x7b' :: '\x7d' :: nestClose (m + 1))), rfl⟩

/-- The preprocessing pipeline leaves the probe unchanged: it has no angle
brackets, slashes, whitespace or step word. -/
theorem preprocess_deepNested (n : Nat) :
    preprocessText (deepNested n) = deepNested n := by
  have hlt : '<' ∉ deepNested n :=
    deepNested_not_mem (by decide) (by decide) (by decide) (by decide)
      (by decide)
  have hsl : '/' ∉ deepNested n :=
    deepNested_not_mem (by decide) (by decide) (by decide) (by decide)
      (by decide)
  have hbu : '步' ∉ deepNested n :=
    deepNested_not_mem (by decide) (by decide) (by decide) (by decide)
      (by decide)
  have hspace : ∀ a ∈ deepNested n, isPySpace a = false := by
    intro a ha
    rcases mem_deepNested ha with rfl | rfl | rfl | rfl | rfl <;> decide
  obtain ⟨tl, htl⟩ := deepNested_cons n
  unfold preprocessText
  rw [removeThink_id hlt, removeMarkers_id hsl, pyStrip_id hspace, htl,
      dropStepTag_id (htl ▸ hbu) (by decide), ← htl]
  exact pyStrip_id hspace

/-- The fenced-block search finds nothing in backtick-free text. -/
theorem findCodeBlock_none_tickless :
    ∀ {cs : List Char}, '`' ∉ cs → findCodeBlock cs = none := by
  intro cs
  induction cs with
  | nil => intro _; rfl
  | cons c t ih =>
    intro h
    have hc : c ≠ '`' := fun he => h (he ▸ List.mem_cons_self c t)
    have ht : '`' ∉ t := fun hm => h (List.mem_cons_of_mem c hm)
    simp only [findCodeBlock, matchCodeBlockAt_none_of_head hc, ih ht]

/-- Brace-scan step: the first opening brace records the span start. -/
theorem braceGo_first_open (rest : List Char) :
    braceGo ('\x7b' :: rest) 0 none = braceGo rest 1 (some ['\x7b']) := by
  simp only [braceGo, eq_self_iff_true, if_true, zero_add]

/-- Brace-scan step: an opening brace at nonzero depth increments the
counter and extends the span. -/
theorem braceGo_open_char (rest : List Char) (d : Int) (a : List Char)
    (hd : ¬(d = 0)) :
    braceGo ('\x7b' :: rest) d (some a)
      = braceGo rest (d + 1) (some ('\x7b' :: a)) := by
  simp only [braceGo, eq_self_iff_true, if_true, hd, if_false,
    Option.map_some']

/-- Brace-scan step: a non-brace character only extends the span. -/
theorem braceGo_other_char (c : Char) (rest : List Char) (d : Int)
    (a : List Char) (h1 : ¬(c = '\x7b')) (h2 : ¬(c = '\x7d')) :
    braceGo (c :: rest) d (some a) = braceGo rest d (some (c :: a)) := by
  simp only [braceGo, h1, h2, if_false, Option.map_some']

/-- Brace-scan step: a closing brace that does not hit depth zero
decrements the counter and extends the span. -/
theorem braceGo_close_char_go (rest : List Char) (d : Int) (a : List Char)
    (hd : ¬(d - 1 = 0)) :
    braceGo ('\x7d' :: rest) d (some a)
      = braceGo rest (d - 1) (some ('\x7d' :: a)) := by
  have hbo : ¬(('\x7d' : Char) = '\x7b') := by decide
  simp only [braceGo, hbo, if_false, eq_self_iff_true, if_true, hd,
    Option.map_some']

/-- Brace-scan step: the closing brace reaching depth zero returns the
recorded span. -/
theorem braceGo_close_char_ret (rest : List Char) (d : Int) (a : List Char)
    (hd : d - 1 = 0) :
    braceGo ('\x7d' :: rest) d (some a) = some (('\x7d' :: a).reverse) := by
  have hbo : ¬(('\x7d' : Char) = '\x7b') := by decide
  simp only [braceGo, hbo, if_false, eq_self_iff_true, if_true, hd]

/-- Scanning an opening run from positive depth: the counter gains `k` and
the whole run joins the span. -/
theorem braceGo_open_run :
    ∀ (k : Nat) (rest : List Char) (d : Int) (a : List Char), 1 ≤ d →
      braceGo (nestOpen k ++ rest) d (some a)
        = braceGo rest (d + k) (some ((nestOpen k).reverse ++ a)) := by
  intro k
  induction k with
  | zero =>
    intro rest d a _
    simp [nestOpen]
  | succ m ih =>
    intro rest d a hd
    have hcons : nestOpen (m + 1) ++ rest
        = '\x7b' :: '"' :: 'a' :: '"' :: ':' :: (nestOpen m ++ rest) := rfl
    rw [hcons, braceGo_open_char _ _ _ (by omega)]
    rw [braceGo_other_char '"' _ _ _ (by decide) (by decide)]
    rw [braceGo_other_char 'a' _ _ _ (by decide) (by decide)]
    rw [braceGo_other_char '"' _ _ _ (by decide) (by decide)]
    rw [braceGo_other_char ':' _ _ _ (by decide) (by decide)]
    rw [ih _ _ _ (by omega : (1 : Int) ≤ d + 1)]
    have hdep : d + 1 + (m : Int) = d + ((m + 1 : Nat) : Int) := by
      push_cast
      ring
    rw [hdep]
    have hacc : (nestOpen m).reverse ++ ':' :: '"' :: 'a' :: '"' :: '\x7b' :: a
        = (nestOpen (m + 1)).reverse ++ a := by
      simp [nestOpen, List.append_assoc]
    rw [hacc]

/-- Scanning the closing run with the counter equal to its length: the last
closer hits depth zero and the whole span is returned. -/
theorem braceGo_close_run :
    ∀ (k : Nat) (a : List Char),
      braceGo (nestClose (k + 1)) ((k : Int) + 1) (some a)
        = some (((nestClose (k + 1)).reverse ++ a).reverse) := by
  intro k
  induction k with
  | zero =>
    intro a
    have hc : nestClose 1 = ['\x7d'] := rfl
    rw [hc, braceGo_close_char_ret _ _ _ (by omega)]
    simp
  | succ j ih =>
    intro a
    have hc : nestClose (j + 1 + 1) = '\x7d' :: nestClose (j + 1) := rfl
    rw [hc, braceGo_close_char_go _ _ _ (by omega)]
    have hd : ((j + 1 : Nat) : Int) + 1 - 1 = ((j : Nat) : Int) + 1 := by
      push_cast
      ring
    rw [hd, ih ('\x7d' :: a)]
    simp [List.append_assoc]

/-- The brace scan returns the whole probe: every closing brace before the
last keeps the counter positive. -/
theorem braceGo_deepNested (m : Nat) :
    braceGo (deepNested (m + 1)) 0 none = some (deepNested (m + 1)) := by
  have h0 : deepNested (m + 1)
      = '\x7b' :: '"' :: 'a' :: '"' :: ':' ::
          (nestOpen m ++ ('\x7b' :: '\x7d' :: nestClose (m + 1))) := rfl
  rw [h0, braceGo_first_open]
  rw [braceGo_other_char '"' _ _ _ (by decide) (by decide)]
  rw [braceGo_other_char 'a' _ _ _ (by decide) (by decide)]
  rw [braceGo_other_char '"' _ _ _ (by decide) (by decide)]
  rw [braceGo_other_char ':' _ _ _ (by decide) (by decide)]
  rw [braceGo_open_run m _ 1 _ (by omega)]
  rw [braceGo_open_char _ _ _ (by omega)]
  rw [braceGo_close_char_go _ _ _ (by omega)]
  have hdep : (1 : Int) + (m : Int) + 1 - 1 = (m : Int) + 1 := by ring
  rw [hdep, braceGo_close_run m]
  simp [List.append_assoc]

/-- Extraction returns the whole probe: preprocessing is the identity on
it, no fenced block can match, and the brace scan spans it entirely. -/
theorem extract_json_deepNested (m : Nat) :
    extract_json (deepNested (m + 1)) = some (deepNested (m + 1)) := by
  have htick : '`' ∉ deepNested (m + 1) :=
    deepNested_not_mem (by decide) (by decide) (by decide) (by decide)
      (by decide)
  simp only [extract_json, preprocess_deepNested,
    findCodeBlock_none_tickless htick, braceGo_deepNested]

/-- The decode behaviour `json.loads` exhibits at CPython's default
recursion limit (1000): the depth-1501 probe overflows the recursive
descent of the pure-Python scanner and `RecursionError` is raised, which
is not a `json.JSONDecodeError`.  Other inputs are left unmodelled. -/
def deepLoads (js : List Char) : DecodeOutcome :=
  if js = deepNested 1500 then .raise "RecursionError"
  else .decodeErr "unmodelled candidate"

/-- A recorded candidate on which the decoder raises makes `parseRun`
itself raise. -/
theorem parseRun_raise_of {dec : List Char → DecodeOutcome}
    {cs js : List Char} {e : String} (hc : candidateOf cs = some js)
    (hd : dec js = DecodeOutcome.raise e) :
    parseRun dec cs = Except.error e := by
  rw [parseRun_eq_candidate, hc]
  dsimp only
  rw [hd]

/-- C6, counterexample.  On the response `'\x7b"a":' * 1500 + '\x7b\x7d'
+ '\x7d' * 1500`, `extract_json` returns the whole balanced span, and
`json.loads` on that candidate — nesting depth 1501, above the default
recursion limit — raises `RecursionError`.  `except json.JSONDecodeError`
(action_parser.py line 149) does not catch it and the outer `try` (line
160) only begins after the decode, so `parse` raises instead of returning
an `AgentResponse`: it is not error-free on every input string. -/
theorem C6_counterexample :
    extract_json (deepNested 1500) = some (deepNested 1500)
      ∧ parseRun deepLoads (deepNested 1500)
          = Except.error "RecursionError" := by
  have he : extract_json (deepNested 1500) = some (deepNested 1500) :=
    extract_json_deepNested 1499
  obtain ⟨tl, htl⟩ := deepNested_cons 1500
  have hc : candidateOf (deepNested 1500) = some (deepNested 1500) := by
    have he' := he
    rw [htl] at he' ⊢
    unfold candidateOf
    rw [he']
    rfl
  have hdl : deepLoads (deepNested 1500)
      = DecodeOutcome.raise "RecursionError" := by
    unfold deepLoads
    rw [if_pos rfl]
  exact ⟨he, parseRun_raise_of hc hdl⟩
